import Mathlib

/-!
# irc-slack: the IRC framer, the command handlers and the paginated Slack fetch

A shallow embedding of `src/pkg/ircslack/server.go` (`Server.HandleMsg`) and of
`src/irc_server.go` (`SendIrcNumeric`, the command handlers, `usersInConversation`,
`joinChannels`), followed by theorems about them.

Conventions of the embedding.

* A Go `string` is modelled as a list of characters (`GoString`).  Every index and
  slice bound the modelled code uses lies next to one of the one-byte characters
  `:`, `#`, space, CR, LF, so that slicing by bytes and slicing by characters agree.
* A Go run-time panic (index or slice bound out of range, nil dereference) is
  explicit: `Option` in the framer, the flag `panicked` in the handlers.
* Writes to the connection, remote API calls and goroutine starts are recorded, in
  order, as a list of `Effect`s.  Logging and `time.Sleep` are not recorded.
* Loops that the source does not bound (the page loops) take a `fuel` argument.
-/

namespace IrcSlack

/-! ## Strings (Go package `strings`, `fmt`) -/

/-- A Go string. -/
abbrev GoString := List Char

/-- The line terminator `"\r\n"`. -/
def CRLF : GoString := ['\r', '\n']

/-- Go `strings.HasPrefix(s, p)`. -/
def HasPrefix (s p : GoString) : Bool := p.isPrefixOf s

/-- Go `strings.HasSuffix(s, p)`. -/
def HasSuffix (s p : GoString) : Bool := p.isSuffixOf s

/-- Go `strings.Split(s, sep)` for a one-byte separator `sep`: all the substrings
of `s` between separators; always at least one element. -/
def Split : GoString → Char → List GoString
  | [], _ => [[]]
  | c :: cs, sep =>
    if c = sep then [] :: Split cs sep
    else match Split cs sep with
      | [] => [[c]]
      | t :: ts => (c :: t) :: ts

/-- Go `strings.genSplit` limited to at most `k + 1` substrings, the last one being
the unsplit remainder. -/
def splitAtMost : GoString → Char → Nat → List GoString
  | s, _, 0 => [s]
  | [], _, _ + 1 => [[]]
  | c :: cs, sep, k + 1 =>
    if c = sep then [] :: splitAtMost cs sep k
    else match splitAtMost cs sep (k + 1) with
      | [] => [[c]]
      | t :: ts => (c :: t) :: ts

/-- Go `strings.SplitN(s, sep, n)` for a one-byte separator: `n = 0` gives no
substrings, `n < 0` all of them, `n > 0` at most `n`, the last being the unsplit
remainder (so `n = 1` gives `[s]`). -/
def SplitN (s : GoString) (sep : Char) (n : Int) : List GoString :=
  if n = 0 then []
  else if n < 0 then Split s sep
  else splitAtMost s sep (n.toNat - 1)

/-- Go `strings.Join(elems, sep)`. -/
def Join : List GoString → GoString → GoString
  | [], _ => []
  | [a], _ => a
  | a :: b :: rest, sep => a ++ sep ++ Join (b :: rest) sep

/-- Go slice expression `s[i:]`; `none` is the run-time panic for `i > len(s)`. -/
def sliceFrom (s : GoString) (i : Nat) : Option GoString :=
  if i ≤ s.length then some (s.drop i) else none

/-- Go slice expression `s[:j]`; `none` is the run-time panic for `j > len(s)`. -/
def sliceTo (s : GoString) (j : Nat) : Option GoString :=
  if j ≤ s.length then some (s.take j) else none

/-- The decimal digits of `u`, most significant first, as `fmt` writes them
(`fuel` bounds the number of digits). -/
def fmtDigits : Nat → Nat → GoString
  | 0, _ => []
  | fuel + 1, u =>
    if u < 10 then [Char.ofNat (48 + u)]
    else fmtDigits fuel (u / 10) ++ [Char.ofNat (48 + u % 10)]

/-- Go `fmt.Sprintf("%0<wid>d", code)`: the digits of `|code|`, padded on the left
with zeros to `wid` characters, one of which is the sign when `code < 0`. -/
def fmtZeroPadded (wid : Nat) (code : Int) : GoString :=
  let digits := fmtDigits (code.natAbs + 1) code.natAbs
  let prec := if code < 0 then wid - 1 else wid
  let padded := List.replicate (prec - digits.length) '0' ++ digits
  if code < 0 then '-' :: padded else padded

/-- Go `fmt.Sprintf("%d", code)`. -/
def fmtDecimal (code : Int) : GoString := fmtZeroPadded 0 code

/-! ## Data model -/

/-- A client connection (`net.Conn`), identified by its remote address. -/
structure Conn where
  RemoteAddr : Nat
deriving DecidableEq, Repr

/-- The fields of `slack.Channel` that the code reads. -/
structure SlackChannel where
  ID : GoString
  Name : GoString
  Topic : GoString
  Members : List GoString
  IsMember : Bool
deriving DecidableEq, Repr

/-- The fields of `slack.User` that the code reads. -/
structure SlackUser where
  ID : GoString
  Name : GoString
  RealName : GoString
deriving DecidableEq, Repr

/-- The remote API as the single-call handlers see it (`ctx.SlackClient`): the
answer of the workspace to each call, `Except.error` carrying the Go `error`. -/
structure SlackClient where
  GetChannels : Bool → Except GoString (List SlackChannel)
  LeaveChannel : GoString → Except GoString Bool
  JoinChannel : GoString → Except GoString SlackChannel

/-- The `FileHandler` of a session. -/
structure FileHandler where
  SlackAPIKey : GoString
  FileDownloadLocation : GoString
  ProxyPrefix : GoString
deriving DecidableEq, Repr

/-- The per-connection session (`IrcContext`), with the fields the two source files
set or read.  `SlackClient = none` is the nil pointer of a session that has not
connected to Slack yet. -/
structure IrcContext where
  Conn : Conn
  ServerName : GoString
  SlackAPIKey : GoString
  SlackDebug : Bool
  ChunkSize : Int
  FileHandler : FileHandler
  UsersPagination : Int
  ChannelsPagination : Int
  Nick : GoString
  UserName : GoString
  RealName : GoString
  SlackClient : Option SlackClient

/-- The `Server` object (listener and TLS configuration left out). -/
structure Server where
  Name : GoString
  SlackAPIKey : GoString
  SlackDebug : Bool
  ChunkSize : Int
  FileDownloadLocation : GoString
  FileProxyPrefix : GoString
  Pagination : Int
deriving DecidableEq, Repr

/-- The session registry `UserContexts` (`map[net.Addr]*IrcContext`): an association
list with at most one entry per key; an entry may hold the nil pointer. -/
abbrev Registry := List (Conn × Option IrcContext)

/-- Map lookup `UserContexts[addr]`: `none` when the key is absent. -/
def Registry.get (reg : Registry) (addr : Conn) : Option (Option IrcContext) :=
  (reg.find? (fun e => e.1 = addr)).map (fun e => e.2)

/-- Map assignment `UserContexts[addr] = ctx`. -/
def Registry.set (reg : Registry) (addr : Conn) (ctx : IrcContext) : Registry :=
  (addr, some ctx) :: reg.filter (fun e => e.1 ≠ addr)

/-! ## The framer: `Server.HandleMsg` (src/pkg/ircslack/server.go) -/

/-- The call `handler(ctx, prefix, cmd, args, trailing)` that ends `HandleMsg`. -/
structure HandlerCall (H : Type) where
  handler : H
  ctx : IrcContext
  pfx : GoString
  cmd : GoString
  args : List GoString
  trailing : GoString

/-- What one run of `HandleMsg` does: the registry it leaves, the session it created
and started (`go ctx.Start()`), if any, and the handler call it made, if any. -/
structure Dispatch (H : Type) where
  UserContexts : Registry
  started : Option IrcContext
  call : Option (HandlerCall H)

/-- The loop of `HandleMsg` over `args` (lines 101-107), at index `idx` with `rest`
still to visit: the first argument beginning with `:` starts the trailing
parameter.  Returns the final `(args, trailing)`; `none` is a run-time panic. -/
def trailingLoop (args : List GoString) : Nat → List GoString →
    Option (List GoString × GoString)
  | _, [] => some (args, [])
  | idx, arg :: rest =>
    if HasPrefix arg [':'] then
      match sliceFrom (Join (args.drop idx) [' ']) 1 with
      | none => none
      | some trailing => some (args.take idx, trailing)
    else trailingLoop args (idx + 1) rest

/-- The session `HandleMsg` creates for a connection it has not seen (lines 115-130). -/
def newContext (s : Server) (conn : Conn) : IrcContext :=
  { Conn := conn
    ServerName := s.Name
    SlackAPIKey := s.SlackAPIKey
    SlackDebug := s.SlackDebug
    ChunkSize := s.ChunkSize
    FileHandler :=
      { SlackAPIKey := s.SlackAPIKey
        FileDownloadLocation := s.FileDownloadLocation
        ProxyPrefix := s.FileProxyPrefix }
    UsersPagination := s.Pagination
    ChannelsPagination := s.Pagination
    Nick := []
    UserName := []
    RealName := []
    SlackClient := none }

/-- The part of `HandleMsg` after the line is framed (lines 108-134): look the verb
up, resolve or create the session, call the handler. -/
def dispatch {H : Type} (s : Server) (IrcCommandHandlers : GoString → Option H)
    (UserContexts : Registry) (conn : Conn) (pfx cmd : GoString)
    (args : List GoString) (trailing : GoString) : Dispatch H :=
  match IrcCommandHandlers cmd with
  | none => { UserContexts := UserContexts, started := none, call := none }
  | some handler =>
    match UserContexts.get conn with
    | some (some ctx) =>
      { UserContexts := UserContexts
        started := none
        call := some
          { handler := handler, ctx := ctx, pfx := pfx, cmd := cmd, args := args,
            trailing := trailing } }
    | _ =>
      let ctx := newContext s conn
      { UserContexts := UserContexts.set conn ctx
        started := some ctx
        call := some
          { handler := handler, ctx := ctx, pfx := pfx, cmd := cmd, args := args,
            trailing := trailing } }

/-- The first part of `HandleMsg` (lines 81-90): the prefix and the data of a
non-empty message.  `none` is a run-time panic. -/
def splitPrefix (msg : GoString) : Option (GoString × GoString) :=
  if msg.head? = some ':' then
    match SplitN (msg.drop 1) ' ' 1 with
    | [] => none
    | pfx :: _ =>
      match sliceFrom msg (pfx.length + 1) with
      | none => none
      | some data => some (pfx, data)
  else some ([], msg)

/-- `Server.HandleMsg(conn, msg)`, with the handler table and the registry (package
variables `IrcCommandHandlers` and `UserContexts`) as arguments.  `none` is a
run-time panic. -/
def HandleMsg {H : Type} (s : Server) (IrcCommandHandlers : GoString → Option H)
    (UserContexts : Registry) (conn : Conn) (msg : GoString) : Option (Dispatch H) :=
  if msg.length < 1 then
    some { UserContexts := UserContexts, started := none, call := none }
  else
    match splitPrefix msg with
    | none => none
    | some (pfx, data) =>
      if !HasSuffix data CRLF then
        some { UserContexts := UserContexts, started := none, call := none }
      else
        match sliceTo data (data.length - 2) with
        | none => none
        | some data =>
          match Split data ' ' with
          | [] => none
          | cmd :: args =>
            match trailingLoop args 0 args with
            | none => none
            | some (args, trailing) =>
              some (dispatch s IrcCommandHandlers UserContexts conn pfx cmd args trailing)

/-- A handler call without the session: the handler and the
`(prefix, cmd, args, trailing)` it is given. -/
structure Handed (H : Type) where
  handler : H
  pfx : GoString
  cmd : GoString
  args : List GoString
  trailing : GoString
deriving DecidableEq, Repr

/-- The handler call of a run of `HandleMsg`; `none` when no handler is called. -/
def handed {H : Type} (r : Option (Dispatch H)) : Option (Handed H) :=
  match r with
  | none => none
  | some d =>
    d.call.map (fun c =>
      { handler := c.handler, pfx := c.pfx, cmd := c.cmd, args := c.args,
        trailing := c.trailing })

/-- The line format `[":"+prefix+" "]+cmd+[" "+arg]*[" :"+trailing]+"\r\n"`; the
prefix and the trailing are optional. -/
def formatLine (pfx : Option GoString) (cmd : GoString) (args : List GoString)
    (trailing : Option GoString) : GoString :=
  (match pfx with
    | none => []
    | some p => ':' :: p ++ [' ']) ++
  cmd ++ (args.map (fun a => ' ' :: a)).flatten ++
  (match trailing with
    | none => []
    | some t => ' ' :: ':' :: t) ++
  CRLF

/-- Re-serialization of a handler call in the line format: the prefix and the
trailing are written when they are not empty (as `IrcPingHandler` does for the
trailing). -/
def serialize {H : Type} (c : Handed H) : GoString :=
  formatLine (if c.pfx = [] then none else some c.pfx) c.cmd c.args
    (if c.trailing = [] then none else some c.trailing)

/-- A server configuration for the concrete examples. -/
def exampleServer : Server :=
  { Name := "irc.example".toList, SlackAPIKey := [], SlackDebug := false, ChunkSize := 512
    FileDownloadLocation := [], FileProxyPrefix := [], Pagination := 0 }

/-! ## Replies and command handlers (src/irc_server.go) -/

/-- Project constant `MaxSlackAPIAttempts`. -/
def MaxSlackAPIAttempts : Nat := 3

/-- What a handler does to the outside world, in order. -/
inductive Effect where
  /-- `ctx.Conn.Write(data)`. -/
  | write (data : GoString)
  /-- `ctx.Conn.Close()`. -/
  | close
  /-- `ctx.SlackClient.PostMessage(channel, text, params)` with `params.AsUser = asUser`. -/
  | postMessage (channel text : GoString) (asUser : Bool)
  /-- `ctx.SlackClient.GetChannels(excludeArchived)`. -/
  | getChannels (excludeArchived : Bool)
  /-- `ctx.SlackClient.LeaveChannel(id)`. -/
  | leaveChannel (id : GoString)
  /-- `ctx.SlackClient.JoinChannel(name)`. -/
  | joinChannel (name : GoString)
  /-- `go IrcSendChanInfoAfterJoin(ctx, name, topic, members, isGroup)`. -/
  | goSendChanInfoAfterJoin (name topic : GoString) (members : List GoString)
      (isGroup : Bool)
deriving DecidableEq, Repr

/-- The outcome of a handler: the session it leaves, its effects in order, and
whether it ended in a run-time panic (after the effects listed). -/
structure HandlerResult where
  ctx : IrcContext
  effects : List Effect
  panicked : Bool

/-- The methods of `IrcContext` that the handlers call and whose code is not in the
two source files. -/
structure ContextMethods where
  Mask : IrcContext → GoString
  GetUserInfoByName : IrcContext → GoString → Option SlackUser

/-- `SendIrcNumeric(ctx, code, args, desc)`: the writes it makes on the connection. -/
def SendIrcNumeric (ctx : IrcContext) (code : Int) (args desc : GoString) : List Effect :=
  let reply := [':'] ++ ctx.ServerName ++ [' '] ++ fmtZeroPadded 3 code ++ [' '] ++ args ++
    " :".toList ++ desc ++ CRLF
  [Effect.write reply]

/-- `IrcCapHandler`. -/
def IrcCapHandler (ctx : IrcContext) (_pfx _cmd : GoString) (args : List GoString)
    (_trailing : GoString) : HandlerResult :=
  if args.length > 1 then
    match args.get? 0 with
    | none => { ctx := ctx, effects := [], panicked := true }
    | some a0 =>
      if a0 = "LS".toList then
        let reply := [':'] ++ ctx.ServerName ++ " CAP * LS :".toList ++ CRLF
        { ctx := ctx, effects := [Effect.write reply], panicked := false }
      else { ctx := ctx, effects := [], panicked := false }
  else { ctx := ctx, effects := [], panicked := false }

/-- `IrcPrivMsgHandler`.  The test `len(args) != 1` only logs. -/
def IrcPrivMsgHandler (ctx : IrcContext) (_pfx _cmd : GoString) (args : List GoString)
    (trailing : GoString) : HandlerResult :=
  match args.get? 0 with
  | none => { ctx := ctx, effects := [], panicked := true }
  | some target =>
    let target := if !HasPrefix target ['#'] then '@' :: target else target
    let text := trailing
    match ctx.SlackClient with
    | none => { ctx := ctx, effects := [], panicked := true }
    | some _ =>
      { ctx := ctx, effects := [Effect.postMessage target text true], panicked := false }

/-- `IrcPingHandler`. -/
def IrcPingHandler (ctx : IrcContext) (_pfx _cmd : GoString) (args : List GoString)
    (trailing : GoString) : HandlerResult :=
  let msg := "PONG ".toList ++ Join args [' ']
  let msg := if trailing ≠ [] then msg ++ " :".toList ++ trailing else msg
  { ctx := ctx, effects := [Effect.write (msg ++ CRLF)], panicked := false }

/-- `IrcQuitHandler`. -/
def IrcQuitHandler (ctx : IrcContext) (_pfx _cmd : GoString) (_args : List GoString)
    (_trailing : GoString) : HandlerResult :=
  { ctx := ctx, effects := [Effect.close], panicked := false }

/-- `IrcPassHandler`. -/
def IrcPassHandler (ctx : IrcContext) (_pfx _cmd : GoString) (args : List GoString)
    (_trailing : GoString) : HandlerResult :=
  if args.length ≠ 1 then
    { ctx := ctx
      effects := SendIrcNumeric ctx 464 [] "Invalid password".toList
      panicked := false }
  else
    match args.get? 0 with
    | none => { ctx := ctx, effects := [], panicked := true }
    | some a0 => { ctx := { ctx with SlackAPIKey := a0 }, effects := [], panicked := false }

/-- `IrcWhoisHandler`. -/
def IrcWhoisHandler (m : ContextMethods) (ctx : IrcContext) (_pfx _cmd : GoString)
    (args : List GoString) (_trailing : GoString) : HandlerResult :=
  if args.length ≠ 1 ∧ args.length ≠ 2 then
    { ctx := ctx
      effects := SendIrcNumeric ctx 400 ctx.Nick "Invalid WHOIS command".toList
      panicked := false }
  else
    match args.get? 0 with
    | none => { ctx := ctx, effects := [], panicked := true }
    | some username =>
      match m.GetUserInfoByName ctx username with
      | none =>
        { ctx := ctx
          effects := SendIrcNumeric ctx 401 ctx.Nick ("No such nick ".toList ++ username)
          panicked := false }
      | some user =>
        { ctx := ctx
          effects :=
            SendIrcNumeric ctx 311
              (username ++ [' '] ++ user.Name ++ [' '] ++ user.ID ++ " localhost *".toList)
              user.RealName ++
            SendIrcNumeric ctx 312 (username ++ [' '] ++ ctx.ServerName) ctx.ServerName ++
            SendIrcNumeric ctx 319 ctx.Nick username
          panicked := false }

/-- `IrcJoinHandler`. -/
def IrcJoinHandler (ctx : IrcContext) (_pfx _cmd : GoString) (args : List GoString)
    (_trailing : GoString) : HandlerResult :=
  if args.length ≠ 1 then
    { ctx := ctx
      effects := SendIrcNumeric ctx 400 ctx.Nick "Invalid JOIN command".toList
      panicked := false }
  else
    match args.get? 0 with
    | none => { ctx := ctx, effects := [], panicked := true }
    | some channame =>
      match ctx.SlackClient with
      | none => { ctx := ctx, effects := [], panicked := true }
      | some client =>
        match client.JoinChannel channame with
        | .error _ => { ctx := ctx, effects := [Effect.joinChannel channame], panicked := false }
        | .ok ch =>
          { ctx := ctx
            effects :=
              [Effect.joinChannel channame,
               Effect.goSendChanInfoAfterJoin ch.Name ch.Topic ch.Members true]
            panicked := false }

/-- The loop of `IrcPartHandler` over the channel list (lines 453-460): the ID of the
first channel named `channame`, the empty string when there is none. -/
def findChanID (channame : GoString) : List SlackChannel → GoString
  | [] => []
  | ch :: rest => if ch.Name = channame then ch.ID else findChanID channame rest

/-- `IrcPartHandler`. -/
def IrcPartHandler (m : ContextMethods) (ctx : IrcContext) (_pfx _cmd : GoString)
    (args : List GoString) (_trailing : GoString) : HandlerResult :=
  if args.length ≠ 1 then
    { ctx := ctx
      effects := SendIrcNumeric ctx 400 ctx.Nick "Invalid PART command".toList
      panicked := false }
  else
    match args.get? 0 with
    | none => { ctx := ctx, effects := [], panicked := true }
    | some channame =>
      match (if HasPrefix channame ['#'] then sliceFrom channame 1 else some channame) with
      | none => { ctx := ctx, effects := [], panicked := true }
      | some channame =>
        match ctx.SlackClient with
        | none => { ctx := ctx, effects := [], panicked := true }
        | some client =>
          match client.GetChannels true with
          | .error err =>
            { ctx := ctx
              effects := Effect.getChannels true ::
                SendIrcNumeric ctx 400 ctx.Nick ("Cannot leave channel: ".toList ++ err)
              panicked := false }
          | .ok chanlist =>
            let chanID := findChanID channame chanlist
            if chanID = [] then
              { ctx := ctx
                effects := Effect.getChannels true ::
                  SendIrcNumeric ctx 441 ctx.Nick
                    ("User is not in channel ".toList ++ channame)
                panicked := false }
            else
              match client.LeaveChannel chanID with
              | .error _ =>
                { ctx := ctx
                  effects := [Effect.getChannels true, Effect.leaveChannel chanID]
                  panicked := false }
              | .ok notInChan =>
                if notInChan then
                  { ctx := ctx
                    effects := [Effect.getChannels true, Effect.leaveChannel chanID] ++
                      SendIrcNumeric ctx 441 ctx.Nick
                        ("User is not in channel ".toList ++ channame)
                    panicked := false }
                else
                  { ctx := ctx
                    effects :=
                      [Effect.getChannels true, Effect.leaveChannel chanID,
                       Effect.write
                         ([':'] ++ m.Mask ctx ++ " PART #".toList ++ channame ++ CRLF)]
                    panicked := false }

/-- The keys of the table `IrcCommandHandlers`, each with the name of its handler. -/
def IrcCommandHandlers (cmd : GoString) : Option String :=
  if cmd = "CAP".toList then some "IrcCapHandler"
  else if cmd = "NICK".toList then some "IrcNickHandler"
  else if cmd = "USER".toList then some "IrcUserHandler"
  else if cmd = "PING".toList then some "IrcPingHandler"
  else if cmd = "PRIVMSG".toList then some "IrcPrivMsgHandler"
  else if cmd = "QUIT".toList then some "IrcQuitHandler"
  else if cmd = "MODE".toList then some "IrcModeHandler"
  else if cmd = "PASS".toList then some "IrcPassHandler"
  else if cmd = "WHOIS".toList then some "IrcWhoisHandler"
  else if cmd = "JOIN".toList then some "IrcJoinHandler"
  else if cmd = "PART".toList then some "IrcPartHandler"
  else none

/-! ## The paginated fetch with retry (src/irc_server.go) -/

/-- The Go `error` of a remote call: `*slack.RateLimitedError` with its `RetryAfter`,
or any other error with its message. -/
inductive SlackError where
  | rateLimited (retryAfter : Nat)
  | other (msg : GoString)
deriving DecidableEq, Repr

/-- The three values a paginated call returns: the page, the next cursor and the
error (`none` is Go `nil`).  All three are returned whatever the error is. -/
structure Page (α : Type) where
  items : List α
  nextCursor : GoString
  err : Option SlackError

/-- The remote workspace as the paginated calls see it: a state machine that
answers each request from its current state. -/
structure Remote (σ : Type) where
  GetUsersInConversation : σ → GoString → GoString → Page GoString × σ
  GetConversations : σ → GoString → Page SlackChannel × σ

/-- A request of the paginated fetch. -/
inductive ApiCall where
  /-- `GetUsersInConversation` with `ChannelID` and `Cursor`. -/
  | getUsersInConversation (channelID cursor : GoString)
  /-- `GetConversations` with `Cursor`. -/
  | getConversations (cursor : GoString)
deriving DecidableEq, Repr

/-- What the bridge does, in order. -/
inductive Event where
  /-- A request to the remote API and the error it was answered with. -/
  | request (call : ApiCall) (err : Option SlackError)
  /-- `go IrcSendChanInfoAfterJoin(ctx, name, topic, members, isGroup)`. -/
  | goSendChanInfoAfterJoin (name topic : GoString) (members : List GoString)
      (isGroup : Bool)
deriving DecidableEq, Repr

/-- The event is a request. -/
def Event.isRequest : Event → Bool
  | .request _ _ => true
  | _ => false

/-- The event is a request answered with a rate-limit error. -/
def Event.isRateLimited : Event → Bool
  | .request _ (some (.rateLimited _)) => true
  | _ => false

/-- How the inner (attempt) loop ends, with the remote state and the events. -/
inductive Attempts (α σ : Type) where
  /-- `attempt >= MaxSlackAPIAttempts`. -/
  | exceeded (st : σ) (trace : List Event)
  /-- An error that is not a rate limit. -/
  | failed (msg : GoString) (st : σ) (trace : List Event)
  /-- A page: `break` with `m` and `nextCursor` set. -/
  | page (m : List α) (nextCursor : GoString) (st : σ) (trace : List Event)

/-- Put an earlier event in front. -/
def Attempts.cons {α σ : Type} (ev : Event) : Attempts α σ → Attempts α σ
  | .exceeded st tr => .exceeded st (ev :: tr)
  | .failed msg st tr => .failed msg st (ev :: tr)
  | .page m cur st tr => .page m cur st (ev :: tr)

/-- The inner loop of `usersInConversation` (lines 120-140) and of `joinChannels`
(lines 177-197), the same in both but for the call made.  `left` is
`MaxSlackAPIAttempts - attempt`, so that the test `attempt >= MaxSlackAPIAttempts` is
`left = 0`.  The call assigns `nextCursor` also when it returns an error. -/
def attemptLoop {α σ : Type} (call : σ → GoString → Page α × σ)
    (mk : GoString → ApiCall) : Nat → σ → GoString → Attempts α σ
  | 0, st, _ => .exceeded st []
  | left + 1, st, nextCursor =>
    let r := call st nextCursor
    let ev := Event.request (mk nextCursor) r.1.err
    match r.1.err with
    | some (.rateLimited _) => (attemptLoop call mk left r.2 r.1.nextCursor).cons ev
    | some (.other msg) => .failed msg r.2 [ev]
    | none => .page r.1.items r.1.nextCursor r.2 [ev]

/-- The outcome of a fetch: `result = none` when it was still running as the fuel
ran out, else the Go return values (`Except.error` is `nil, err`); the remote state
it leaves; the events so far. -/
structure Fetch (α σ : Type) where
  result : Option (Except GoString (List α))
  state : σ
  trace : List Event

/-- The requests among the events of a fetch. -/
def Fetch.requests {α σ : Type} (f : Fetch α σ) : List Event :=
  f.trace.filter Event.isRequest

/-- The outer (page) loop of `usersInConversation` (lines 118-146) and of
`joinChannels` (lines 175-202), the same in both but for the call made and the error
messages. -/
def pageLoop {α σ : Type} (call : σ → GoString → Page α × σ) (mk : GoString → ApiCall)
    (exceededMsg : GoString) (failedMsg : GoString → GoString) :
    Nat → σ → List α → GoString → Fetch α σ
  | 0, st, _, _ => { result := none, state := st, trace := [] }
  | fuel + 1, st, acc, nextCursor =>
    match attemptLoop call mk MaxSlackAPIAttempts st nextCursor with
    | .exceeded st1 tr => { result := some (.error exceededMsg), state := st1, trace := tr }
    | .failed msg st1 tr =>
      { result := some (.error (failedMsg msg)), state := st1, trace := tr }
    | .page m cur st1 tr =>
      if cur = [] then { result := some (.ok (acc ++ m)), state := st1, trace := tr }
      else
        let rest := pageLoop call mk exceededMsg failedMsg fuel st1 (acc ++ m) cur
        { rest with trace := tr ++ rest.trace }

/-- The error of line 123 (`name` is `GetUsersInConversation` or `GetConversations`). -/
def exceededError (name : GoString) : GoString :=
  name ++ ": exceeded the maximum number of attempts (".toList ++
    fmtDecimal MaxSlackAPIAttempts ++ ") with the Slack API".toList

/-- `usersInConversation(ctx, conversation)` against the remote `api` in state `st`. -/
def usersInConversation {σ : Type} (api : Remote σ) (fuel : Nat) (st : σ)
    (conversation : GoString) : Fetch GoString σ :=
  pageLoop (fun s cur => api.GetUsersInConversation s conversation cur)
    (ApiCall.getUsersInConversation conversation)
    (exceededError "GetUsersInConversation".toList)
    (fun err => "Cannot get member list for conversation ".toList ++ conversation ++
      ": ".toList ++ err)
    fuel st [] []

/-- `join(ctx, id, name, topic)`. -/
def join {σ : Type} (api : Remote σ) (fuel : Nat) (st : σ) (id name topic : GoString) :
    Fetch Unit σ :=
  let r := usersInConversation api fuel st id
  match r.result with
  | none => { result := none, state := r.state, trace := r.trace }
  | some (.error err) => { result := some (.error err), state := r.state, trace := r.trace }
  | some (.ok members) =>
    { result := some (.ok [])
      state := r.state
      trace := r.trace ++ [Event.goSendChanInfoAfterJoin name topic members false] }

/-- The last loop of `joinChannels` (lines 203-209). -/
def joinMemberChannels {σ : Type} (api : Remote σ) (fuel : Nat) :
    List SlackChannel → σ → Fetch Unit σ
  | [], st => { result := some (.ok []), state := st, trace := [] }
  | ch :: rest, st =>
    if ch.IsMember then
      let r := join api fuel st ch.ID ch.Name ch.Topic
      match r.result with
      | some (.ok _) =>
        let tl := joinMemberChannels api fuel rest r.state
        { tl with trace := r.trace ++ tl.trace }
      | _ => r
    else joinMemberChannels api fuel rest st

/-- The first loop of `joinChannels` (lines 175-202): the conversation list. -/
def listConversations {σ : Type} (api : Remote σ) (fuel : Nat) (st : σ) :
    Fetch SlackChannel σ :=
  pageLoop api.GetConversations ApiCall.getConversations
    (exceededError "GetConversations".toList)
    (fun err => "Cannot get slack channels: ".toList ++ err)
    fuel st [] []

/-- `joinChannels(ctx)` against the remote `api` in state `st`. -/
def joinChannels {σ : Type} (api : Remote σ) (fuel : Nat) (st : σ) : Fetch Unit σ :=
  let r := listConversations api fuel st
  match r.result with
  | none => { result := none, state := r.state, trace := r.trace }
  | some (.error err) => { result := some (.error err), state := r.state, trace := r.trace }
  | some (.ok channels) =>
    let tl := joinMemberChannels api fuel channels r.state
    { tl with trace := r.trace ++ tl.trace }

/-! ## Definitions used to state the theorems -/

/-- The code `c` as exactly three decimal digits: hundreds, tens, units. -/
def threeDigits (c : Int) : GoString :=
  [Char.ofNat (48 + (c / 100).toNat), Char.ofNat (48 + (c / 10 % 10).toNat),
   Char.ofNat (48 + (c % 10).toNat)]

/-- A session for the concrete examples: not connected to Slack. -/
def exampleContext : IrcContext := newContext exampleServer ⟨1⟩

/-- A remote whose channel list is `chanlist` and that lets the user leave and join. -/
def exampleClient (chanlist : List SlackChannel) : SlackClient :=
  { GetChannels := fun _ => .ok chanlist
    LeaveChannel := fun _ => .ok false
    JoinChannel := fun name =>
      .ok { ID := [], Name := name, Topic := [], Members := [], IsMember := true } }

/-- The methods of the session for the concrete examples. -/
def exampleMethods : ContextMethods :=
  { Mask := fun ctx => ctx.Nick ++ "!".toList ++ ctx.UserName ++ "@127.0.0.1".toList
    GetUserInfoByName := fun _ _ => none }

/-- The calls `ctx.SlackClient.LeaveChannel` among the effects. -/
def leaveCalls (effects : List Effect) : List GoString :=
  effects.filterMap (fun e =>
    match e with
    | .leaveChannel id => some id
    | _ => none)

/-- The calls `ctx.SlackClient.PostMessage` among the effects. -/
def postCalls (effects : List Effect) : List (GoString × GoString × Bool) :=
  effects.filterMap (fun e =>
    match e with
    | .postMessage channel text asUser => some (channel, text, asUser)
    | _ => none)

/-- The writes on the connection among the effects. -/
def writes (effects : List Effect) : List GoString :=
  effects.filterMap (fun e =>
    match e with
    | .write data => some data
    | _ => none)

/-- A session for the concrete examples: nick `alice`, connected to `client`. -/
def connectedContext (client : SlackClient) : IrcContext :=
  { exampleContext with Nick := "alice".toList, SlackClient := some client }

/-- The first listed channel whose name equals `n`. -/
def firstNamed (n : GoString) (chanlist : List SlackChannel) : Option SlackChannel :=
  chanlist.find? (fun ch => ch.Name = n)

/-- The page carries a rate-limit error. -/
def Page.rateLimited {α : Type} (p : Page α) : Bool :=
  match p.err with
  | some (.rateLimited _) => true
  | _ => false

/-- The events of an attempt loop. -/
def Attempts.trace {α σ : Type} : Attempts α σ → List Event
  | .exceeded _ tr => tr
  | .failed _ _ tr => tr
  | .page _ _ _ tr => tr

/-- The attempt loop ended on `attempt >= MaxSlackAPIAttempts`. -/
def Attempts.isExceeded {α σ : Type} : Attempts α σ → Bool
  | .exceeded _ _ => true
  | _ => false

/-- For each request among the events, in order, whether it was answered with a
rate-limit error. -/
def rateFlags (tr : List Event) : List Bool :=
  (tr.filter Event.isRequest).map Event.isRateLimited

/-- The length of the longest run of consecutive `true` in `cur` leading `true`s
followed by the list. -/
def longestRun : Nat → List Bool → Nat
  | cur, [] => cur
  | cur, true :: bs => longestRun (cur + 1) bs
  | cur, false :: bs => max cur (longestRun 0 bs)

/-- The length of the run of `true` that ends `cur` leading `true`s followed by the
list. -/
def finalRun : Nat → List Bool → Nat
  | cur, [] => cur
  | cur, true :: bs => finalRun (cur + 1) bs
  | _, false :: bs => finalRun 0 bs

/-- A remote that answers every request with a rate-limit error (and counts them). -/
def alwaysRateLimited : Remote Nat :=
  { GetUsersInConversation := fun s _ _ =>
      ({ items := [], nextCursor := [], err := some (.rateLimited 1) }, s + 1)
    GetConversations := fun s _ =>
      ({ items := [], nextCursor := [], err := some (.rateLimited 1) }, s + 1) }

/-- The retry bound of a fetch: no run of consecutive rate-limited requests is longer
than `MaxSlackAPIAttempts`, and a fetch that succeeded did not end on a rate-limited
request. -/
def Bounded {α σ : Type} (f : Fetch α σ) : Prop :=
  longestRun 0 (rateFlags f.trace) ≤ MaxSlackAPIAttempts ∧
  ((∃ v, f.result = some (.ok v)) → finalRun 0 (rateFlags f.trace) = 0)

/-- A remote with two pages of members and two pages of conversations, whose state
counts the requests made.  The first page (cursor `""`) hands out the cursor `c2` of
the second, last page.  The second request made is answered with a rate-limit error
and, as the Slack client library does with every error, with empty values beside the
error: no items, the empty cursor. -/
def rateLimitedOnce : Remote Nat :=
  { GetUsersInConversation := fun s _ cur =>
      if s = 1 then ({ items := [], nextCursor := [], err := some (.rateLimited 1) }, s + 1)
      else if cur = [] then
        ({ items := ["U1".toList], nextCursor := "c2".toList, err := none }, s + 1)
      else ({ items := ["U2".toList], nextCursor := [], err := none }, s + 1)
    GetConversations := fun s cur =>
      if s = 1 then ({ items := [], nextCursor := [], err := some (.rateLimited 1) }, s + 1)
      else if cur = [] then
        ({ items := [{ ID := "C01".toList, Name := "general".toList, Topic := []
                       Members := [], IsMember := true }]
           nextCursor := "c2".toList, err := none }, s + 1)
      else
        ({ items := [{ ID := "C02".toList, Name := "random".toList, Topic := []
                       Members := [], IsMember := true }]
           nextCursor := [], err := none }, s + 1) }

/-- The cursors of the requests among the events, in order. -/
def cursors (tr : List Event) : List GoString :=
  tr.filterMap (fun e =>
    match e with
    | .request (.getUsersInConversation _ cursor) _ => some cursor
    | .request (.getConversations cursor) _ => some cursor
    | _ => none)

/-- The conversation-list requests among the events, in order. -/
def listRequests (tr : List Event) : List Event :=
  tr.filter (fun e =>
    match e with
    | .request (.getConversations _) _ => true
    | _ => false)

/-- The names of the channels whose join notification was started, in order. -/
def joined (tr : List Event) : List GoString :=
  tr.filterMap (fun e =>
    match e with
    | .goSendChanInfoAfterJoin name _ _ _ => some name
    | _ => none)

/-! ## The framer: lemmas -/

/-- With `n = 1`, `SplitN` returns the unsplit string as its only element. -/
theorem SplitN_one (s : GoString) (sep : Char) : SplitN s sep 1 = [s] := by
  simp [SplitN, splitAtMost]

/-- For a message that starts with `:`, lines 85-86 take the whole rest of the message
as the prefix and leave the empty string as the data. -/
theorem splitPrefix_colon (msg : GoString) (h : msg.head? = some ':') :
    splitPrefix msg = some (msg.drop 1, []) := by
  cases msg with
  | nil => simp at h
  | cons c cs =>
    simp only [List.head?_cons, Option.some.injEq] at h
    subst h
    simp [splitPrefix, SplitN_one, sliceFrom]

/-- Every message that starts with `:` is discarded by the terminator check of line
91: no handler is called and the registry is untouched. -/
theorem HandleMsg_colon {H : Type} (s : Server) (tbl : GoString → Option H)
    (reg : Registry) (conn : Conn) (msg : GoString) (h : msg.head? = some ':') :
    HandleMsg s tbl reg conn msg =
      some { UserContexts := reg, started := none, call := none } := by
  have hlen : ¬ msg.length < 1 := by
    cases msg with
    | nil => simp at h
    | cons c cs => simp
  simp [HandleMsg, hlen, splitPrefix_colon msg h, HasSuffix, CRLF]

/-- C4. For every registry and every line that does not end in CR LF (the empty line
included), `HandleMsg` returns without a panic, calls no handler, creates and starts
no session, and leaves the registry as it was. -/
theorem HandleMsg_unterminated {H : Type} (s : Server) (tbl : GoString → Option H)
    (reg : Registry) (conn : Conn) (msg : GoString) (h : HasSuffix msg CRLF = false) :
    HandleMsg s tbl reg conn msg =
      some { UserContexts := reg, started := none, call := none } := by
  by_cases hc : msg.head? = some ':'
  · exact HandleMsg_colon s tbl reg conn msg hc
  · by_cases hlen : msg.length < 1
    · simp [HandleMsg, hlen]
    · simp [HandleMsg, hlen, splitPrefix, hc, h]




/-- Unfolding of `Split` on a non-empty string. -/
theorem Split_cons (c : Char) (cs : GoString) (sep : Char) :
    Split (c :: cs) sep =
      if c = sep then [] :: Split cs sep
      else match Split cs sep with
        | [] => [[c]]
        | t :: ts => (c :: t) :: ts := rfl

/-- `Split` returns at least one substring. -/
theorem Split_ne_nil (s : GoString) (sep : Char) : Split s sep ≠ [] := by
  induction s with
  | nil => simp [Split]
  | cons c cs ih =>
    unfold Split
    split_ifs
    · simp
    · split <;> simp

/-- A line built by appending the terminator has it as suffix. -/
theorem HasSuffix_append_CRLF (data : GoString) : HasSuffix (data ++ CRLF) CRLF = true := by
  simp [HasSuffix]

/-- Stripping the terminator (line 95) gives the data back. -/
theorem sliceTo_append_CRLF (data : GoString) :
    sliceTo (data ++ CRLF) ((data ++ CRLF).length - 2) = some data := by
  simp [sliceTo, CRLF]

/-- Dropping the first byte of a join whose first element is not empty. -/
theorem Join_cons_drop (tok : GoString) (post : List GoString) (sep : GoString)
    (h : tok ≠ []) :
    (Join (tok :: post) sep).drop 1 = Join (tok.drop 1 :: post) sep := by
  cases tok with
  | nil => exact absurd rfl h
  | cons c cs =>
    cases post with
    | nil => simp [Join]
    | cons p ps => simp [Join]

/-- A token that begins with `:` is not empty. -/
theorem HasPrefix_colon_ne_nil (tok : GoString) (h : HasPrefix tok [':'] = true) :
    tok ≠ [] := by
  rintro rfl
  simp [HasPrefix] at h

/-- The loop over `args` when no remaining argument begins with `:`. -/
theorem trailingLoop_none (args pre rest : List GoString) (hargs : args = pre ++ rest)
    (hno : ∀ t ∈ rest, HasPrefix t [':'] = false) :
    trailingLoop args pre.length rest = some (args, []) := by
  induction rest generalizing pre with
  | nil => simp [trailingLoop]
  | cons a rest ih =>
    have ha : HasPrefix a [':'] = false := hno a (List.mem_cons_self _ _)
    simp only [trailingLoop, ha, Bool.false_eq_true, if_false]
    have := ih (pre ++ [a]) (by simp [hargs]) (fun t ht => hno t (List.mem_cons_of_mem _ ht))
    simpa using this

/-- The loop over `args` when `tok` is the first remaining argument that begins with `:`. -/
theorem trailingLoop_some (args pre mid post : List GoString) (tok : GoString)
    (hargs : args = pre ++ (mid ++ tok :: post))
    (hno : ∀ t ∈ mid, HasPrefix t [':'] = false) (htok : HasPrefix tok [':'] = true) :
    trailingLoop args pre.length (mid ++ tok :: post) =
      some (pre ++ mid, Join (tok.drop 1 :: post) [' ']) := by
  induction mid generalizing pre with
  | nil =>
    have hne := HasPrefix_colon_ne_nil tok htok
    have hlen : 1 ≤ (Join (tok :: post) [' ']).length := by
      cases tok with
      | nil => exact absurd rfl hne
      | cons c cs => cases post <;> simp [Join]
    simp only [List.nil_append, trailingLoop, htok, if_true]
    have hd : args.drop pre.length = tok :: post := by simp [hargs]
    have ht : args.take pre.length = pre := by simp [hargs]
    simp [hd, ht, sliceFrom, hlen, Join_cons_drop tok post [' '] hne]
  | cons a mid ih =>
    have ha : HasPrefix a [':'] = false := hno a (List.mem_cons_self _ _)
    simp only [List.cons_append, trailingLoop, ha, Bool.false_eq_true, if_false]
    have := ih (pre ++ [a]) (by simp [hargs]) (fun t ht => hno t (List.mem_cons_of_mem _ ht))
    simpa using this



/-- The run of `HandleMsg` on a terminated line that does not start with `:`. -/
theorem HandleMsg_framed {H : Type} (s : Server) (tbl : GoString → Option H)
    (reg : Registry) (conn : Conn) (data cmd : GoString) (later args : List GoString)
    (trailing : GoString) (hd : data.head? ≠ some ':')
    (hs : Split data ' ' = cmd :: later)
    (ht : trailingLoop later 0 later = some (args, trailing)) :
    HandleMsg s tbl reg conn (data ++ CRLF) =
      some (dispatch s tbl reg conn [] cmd args trailing) := by
  have hlen : ¬ (data ++ CRLF).length < 1 := by simp [CRLF]
  have hhead : (data ++ CRLF).head? ≠ some ':' := by
    cases data with
    | nil => simp [CRLF]
    | cons c cs => simpa using hd
  have hsp : splitPrefix (data ++ CRLF) = some ([], data ++ CRLF) := by
    unfold splitPrefix
    rw [if_neg hhead]
  unfold HandleMsg
  rw [if_neg hlen]
  simp only [hsp, HasSuffix_append_CRLF, sliceTo_append_CRLF, hs, ht, Bool.not_true,
    Bool.false_eq_true, if_false]

/-- The handler call made by lines 108-134. -/
theorem handed_dispatch {H : Type} (s : Server) (tbl : GoString → Option H)
    (reg : Registry) (conn : Conn) (pfx cmd : GoString) (args : List GoString)
    (trailing : GoString) :
    handed (some (dispatch s tbl reg conn pfx cmd args trailing)) =
      (tbl cmd).map (fun h =>
        { handler := h, pfx := pfx, cmd := cmd, args := args, trailing := trailing }) := by
  unfold dispatch handed
  cases tbl cmd with
  | none => rfl
  | some h =>
    simp only
    split <;> rfl

/-- C2. For a line `data ++ "\r\n"` that does not start with `:`, with `tokens` the
split of `data` on single spaces: the verb looked up in the handler table is token 0
and, when the table has a handler for it, that handler is called with the empty
prefix and
* if `i ≥ 1` is the index of the first token after token 0 that begins with `:`, with
  the tokens after token 0 and before `i` as `args`, and as `trailing` token `i`
  without its leading `:` joined by single spaces with all the tokens after `i`;
* if no token after token 0 begins with `:`, with all the tokens after token 0 as
  `args` and the empty string as `trailing`.
When the table has no handler for token 0, no handler is called. -/
theorem HandleMsg_unprefixed {H : Type} (s : Server) (tbl : GoString → Option H)
    (reg : Registry) (conn : Conn) (data : GoString) (hd : data.head? ≠ some ':') :
    (∀ (i : Nat) (tok : GoString), 1 ≤ i → (Split data ' ')[i]? = some tok →
        HasPrefix tok [':'] = true →
        (∀ (j : Nat) (t : GoString), 1 ≤ j → j < i → (Split data ' ')[j]? = some t →
          HasPrefix t [':'] = false) →
        handed (HandleMsg s tbl reg conn (data ++ CRLF)) =
          (tbl ((Split data ' ').headD [])).map (fun h =>
            { handler := h, pfx := [], cmd := (Split data ' ').headD []
              args := ((Split data ' ').take i).drop 1
              trailing := Join (tok.drop 1 :: (Split data ' ').drop (i + 1)) [' '] })) ∧
    ((∀ (j : Nat) (t : GoString), 1 ≤ j → (Split data ' ')[j]? = some t →
          HasPrefix t [':'] = false) →
        handed (HandleMsg s tbl reg conn (data ++ CRLF)) =
          (tbl ((Split data ' ').headD [])).map (fun h =>
            { handler := h, pfx := [], cmd := (Split data ' ').headD []
              args := (Split data ' ').drop 1
              trailing := [] })) := by
  obtain ⟨cmd, later, hs⟩ : ∃ cmd later, Split data ' ' = cmd :: later := by
    cases h : Split data ' ' with
    | nil => exact absurd h (Split_ne_nil data ' ')
    | cons a b => exact ⟨a, b, rfl⟩
  rw [hs]
  constructor
  · intro i tok hi htok hcolon hfirst
    obtain ⟨k, rfl⟩ : ∃ k, i = k + 1 := ⟨i - 1, by omega⟩
    simp only [List.getElem?_cons_succ] at htok
    have hk : k < later.length := by
      by_contra hcon
      rw [List.getElem?_eq_none (by omega)] at htok
      cases htok
    have hget : later[k] = tok := by
      rw [List.getElem?_eq_getElem hk] at htok
      exact Option.some.inj htok
    have hsplit : later = later.take k ++ tok :: later.drop (k + 1) := by
      rw [← hget]
      simp
    have hno : ∀ t ∈ later.take k, HasPrefix t [':'] = false := by
      intro t ht
      obtain ⟨j, hj, rfl⟩ := List.getElem_of_mem ht
      have hjk : j < k := by
        have := hj
        simp at this
        omega
      apply hfirst (j + 1) _ (by omega) (by omega)
      simp only [List.getElem?_cons_succ]
      rw [List.getElem_take]
      exact List.getElem?_eq_getElem (by omega)
    have hloop := trailingLoop_some later [] (later.take k) (later.drop (k + 1)) tok
      (by simpa using hsplit) hno hcolon
    rw [← hsplit] at hloop
    simp only [List.length_nil, List.nil_append] at hloop
    rw [HandleMsg_framed s tbl reg conn data cmd later _ _ hd hs hloop, handed_dispatch]
    simp
  · intro hnone
    have hno : ∀ t ∈ later, HasPrefix t [':'] = false := by
      intro t ht
      obtain ⟨j, hj, rfl⟩ := List.getElem_of_mem ht
      apply hnone (j + 1) _ (by omega)
      simp only [List.getElem?_cons_succ]
      exact List.getElem?_eq_getElem hj
    have hloop := trailingLoop_none later [] later (by simp) hno
    simp only [List.length_nil] at hloop
    rw [HandleMsg_framed s tbl reg conn data cmd later _ _ hd hs hloop, handed_dispatch]
    simp


/-- Unfolding of `Join` on two or more elements. -/
theorem Join_cons_cons (a b : GoString) (rest : List GoString) (sep : GoString) :
    Join (a :: b :: rest) sep = a ++ sep ++ Join (b :: rest) sep := rfl

/-- Unfolding of `Join` when further elements follow. -/
theorem Join_cons_of_ne_nil (a : GoString) (l : List GoString) (sep : GoString)
    (h : l ≠ []) : Join (a :: l) sep = a ++ sep ++ Join l sep := by
  cases l with
  | nil => exact absurd rfl h
  | cons b rest => rfl

/-- Joining the split of a string with the separator gives the string back. -/
theorem Join_Split (t : GoString) (sep : Char) : Join (Split t sep) [sep] = t := by
  induction t with
  | nil => simp [Split, Join]
  | cons c cs ih =>
    unfold Split
    split_ifs with hc
    · rw [Join_cons_of_ne_nil _ _ _ (Split_ne_nil cs sep), ih, hc]
      simp
    · cases hs : Split cs sep with
      | nil => exact absurd hs (Split_ne_nil cs sep)
      | cons a rest =>
        rw [hs] at ih
        simp only
        cases rest with
        | nil =>
          simp only [Join] at ih ⊢
          rw [ih]
        | cons b rest =>
          rw [Join_cons_cons] at ih ⊢
          rw [← ih]
          simp

/-- A string without the separator is its own only substring. -/
theorem Split_of_not_mem (a : GoString) (sep : Char) (h : sep ∉ a) : Split a sep = [a] := by
  induction a with
  | nil => simp [Split]
  | cons c cs ih =>
    have hc : ¬ c = sep := fun e => h (by simp [e])
    have hcs : sep ∉ cs := fun e => h (List.mem_cons_of_mem _ e)
    rw [Split_cons, if_neg hc, ih hcs]

/-- The split of `a ++ sep ++ b` when `a` has no separator. -/
theorem Split_append_sep (a b : GoString) (sep : Char) (h : sep ∉ a) :
    Split (a ++ sep :: b) sep = a :: Split b sep := by
  induction a with
  | nil => simp [Split]
  | cons c cs ih =>
    have hc : ¬ c = sep := fun e => h (by simp [e])
    have hcs : sep ∉ cs := fun e => h (List.mem_cons_of_mem _ e)
    rw [List.cons_append, Split_cons, if_neg hc, ih hcs]

/-- The split of a command, its arguments and a tail. -/
theorem Split_args (cmd : GoString) (args : List GoString) (tl : GoString) (sep : Char)
    (hcmd : sep ∉ cmd) (hargs : ∀ a ∈ args, sep ∉ a) :
    Split (cmd ++ (args.map (fun a => sep :: a)).flatten ++ sep :: tl) sep =
      cmd :: args ++ Split tl sep := by
  induction args generalizing cmd with
  | nil => simpa using Split_append_sep cmd tl sep hcmd
  | cons a rest ih =>
    have h1 := ih a (hargs a (List.mem_cons_self _ _))
      (fun b hb => hargs b (List.mem_cons_of_mem _ hb))
    have : cmd ++ (List.map (fun a => sep :: a) (a :: rest)).flatten ++ sep :: tl =
        cmd ++ sep :: (a ++ (List.map (fun a => sep :: a) rest).flatten ++ sep :: tl) := by
      simp
    rw [this, Split_append_sep cmd _ sep hcmd, h1]
    simp

/-- The split of a command and its arguments. -/
theorem Split_args_end (cmd : GoString) (args : List GoString) (sep : Char)
    (hcmd : sep ∉ cmd) (hargs : ∀ a ∈ args, sep ∉ a) :
    Split (cmd ++ (args.map (fun a => sep :: a)).flatten) sep = cmd :: args := by
  induction args generalizing cmd with
  | nil => simpa using Split_of_not_mem cmd sep hcmd
  | cons a rest ih =>
    have h1 := ih a (hargs a (List.mem_cons_self _ _))
      (fun b hb => hargs b (List.mem_cons_of_mem _ hb))
    have : cmd ++ (List.map (fun a => sep :: a) (a :: rest)).flatten =
        cmd ++ sep :: (a ++ (List.map (fun a => sep :: a) rest).flatten) := by
      simp
    rw [this, Split_append_sep cmd _ sep hcmd, h1]


/-- C3 (amended). Round trip for the lines without prefix: for every line
`cmd+[" "+arg]*[" :"+trailing]+"\r\n"` where `cmd` does not begin with `:` and has no
space, no `arg` has a space or begins with `:`, and the trailing, when present, is
not empty, and for every handler table with a handler for `cmd`, `HandleMsg` calls
that handler with the empty prefix, `cmd`, the `arg`s and the trailing, and these,
re-serialized in the same format, give the original line back.  (`cmd` and the `arg`s
need not even be non-empty.) -/
theorem HandleMsg_roundtrip_unprefixed {H : Type} (s : Server) (tbl : GoString → Option H)
    (reg : Registry) (conn : Conn) (cmd : GoString) (args : List GoString)
    (trailing : Option GoString) (h : H)
    (hcolon : cmd.head? ≠ some ':') (hcmd : ' ' ∉ cmd)
    (hargs : ∀ a ∈ args, ' ' ∉ a ∧ HasPrefix a [':'] = false)
    (htrailing : trailing ≠ some [])
    (hh : tbl cmd = some h) :
    ∃ c, handed (HandleMsg s tbl reg conn (formatLine none cmd args trailing)) = some c ∧
      c.handler = h ∧ c.pfx = [] ∧ c.cmd = cmd ∧ c.args = args ∧
      c.trailing = trailing.getD [] ∧
      serialize c = formatLine none cmd args trailing := by
  have hsp : ∀ a ∈ args, ' ' ∉ a := fun a ha => (hargs a ha).1
  have hno : ∀ a ∈ args, HasPrefix a [':'] = false := fun a ha => (hargs a ha).2
  cases trailing with
  | none =>
    have hline : formatLine none cmd args none =
        (cmd ++ (args.map (fun a => ' ' :: a)).flatten) ++ CRLF := by
      simp [formatLine]
    have hd : (cmd ++ (args.map (fun a => ' ' :: a)).flatten).head? ≠ some ':' := by
      cases cmd with
      | nil =>
        cases args with
        | nil => simp
        | cons a rest => simp
      | cons c cs => simpa using hcolon
    have hloop := trailingLoop_none args [] args (by simp) hno
    simp only [List.length_nil] at hloop
    refine ⟨{ handler := h, pfx := [], cmd := cmd, args := args, trailing := [] }, ?_, rfl,
      rfl, rfl, rfl, rfl, ?_⟩
    · rw [hline, HandleMsg_framed s tbl reg conn _ cmd args args [] hd
        (Split_args_end cmd args ' ' hcmd hsp) hloop, handed_dispatch, hh]
      rfl
    · simp [serialize]
  | some t =>
    have ht : t ≠ [] := fun e => htrailing (by rw [e])
    have hline : formatLine none cmd args (some t) =
        (cmd ++ (args.map (fun a => ' ' :: a)).flatten ++ ' ' :: (':' :: t)) ++ CRLF := by
      simp [formatLine]
    have hd : (cmd ++ (args.map (fun a => ' ' :: a)).flatten ++ ' ' :: (':' :: t)).head? ≠
        some ':' := by
      cases cmd with
      | nil =>
        cases args with
        | nil => simp
        | cons a rest => simp
      | cons c cs => simpa using hcolon
    obtain ⟨t0, post, hst⟩ : ∃ t0 post, Split t ' ' = t0 :: post := by
      cases hs : Split t ' ' with
      | nil => exact absurd hs (Split_ne_nil t ' ')
      | cons a b => exact ⟨a, b, rfl⟩
    have hsplit : Split (':' :: t) ' ' = (':' :: t0) :: post := by
      rw [Split_cons, if_neg (by decide), hst]
    have hloop := trailingLoop_some (args ++ (':' :: t0) :: post) [] args post (':' :: t0)
      (by simp) hno (by simp [HasPrefix])
    simp only [List.length_nil, List.nil_append, List.drop_one, List.tail_cons] at hloop
    have hjoin : Join (t0 :: post) [' '] = t := by
      rw [← hst]
      exact Join_Split t ' '
    rw [hjoin] at hloop
    refine ⟨{ handler := h, pfx := [], cmd := cmd, args := args, trailing := t }, ?_, rfl,
      rfl, rfl, rfl, rfl, ?_⟩
    · rw [hline, HandleMsg_framed s tbl reg conn _ cmd (args ++ (':' :: t0) :: post) args t hd
        (by rw [Split_args cmd args _ ' ' hcmd hsp, hsplit, List.cons_append]) hloop,
        handed_dispatch, hh]
      rfl
    · simp [serialize, ht]

/-- C3 fails as stated: the well-formed lines `PING :` (trailing present and empty)
and `PING` (no trailing) are handed to the handler as the same
`(prefix, cmd, args, trailing)`, so `serialize` does not give `PING :` back, and no
re-serialization whatever gives both lines back. -/
theorem roundtrip_counterexample :
    formatLine none "PING".toList [] (some []) = "PING :\r\n".toList ∧
    formatLine none "PING".toList [] none = "PING\r\n".toList ∧
    (∃ c, handed (HandleMsg exampleServer IrcCommandHandlers [] ⟨1⟩ "PING :\r\n".toList) =
        some c ∧ serialize c ≠ "PING :\r\n".toList) ∧
    ¬ ∃ ser : Handed String → GoString,
      ∀ line ∈ ["PING :\r\n".toList, "PING\r\n".toList],
        ∃ c, handed (HandleMsg exampleServer IrcCommandHandlers [] ⟨1⟩ line) = some c ∧
          ser c = line := by
  refine ⟨by decide, by decide,
    ⟨{ handler := "IrcPingHandler", pfx := [], cmd := "PING".toList, args := [],
       trailing := [] }, by decide, by decide⟩, ?_⟩
  rintro ⟨ser, hser⟩
  obtain ⟨c1, h1, e1⟩ := hser "PING :\r\n".toList (by simp)
  obtain ⟨c2, h2, e2⟩ := hser "PING\r\n".toList (by simp)
  have k1 : handed (HandleMsg exampleServer IrcCommandHandlers [] ⟨1⟩ "PING :\r\n".toList) =
      some { handler := "IrcPingHandler", pfx := [], cmd := "PING".toList, args := [],
             trailing := [] } := by decide
  have k2 : handed (HandleMsg exampleServer IrcCommandHandlers [] ⟨1⟩ "PING\r\n".toList) =
      some { handler := "IrcPingHandler", pfx := [], cmd := "PING".toList, args := [],
             trailing := [] } := by decide
  rw [k1] at h1
  rw [k2] at h2
  have hc : c1 = c2 := by
    rw [← Option.some.inj h1, ← Option.some.inj h2]
  rw [hc, e2] at e1
  exact absurd e1 (by decide)

/-! ## The framer: concrete runs -/

/-- C1, at the line `:nick PING x`: `SplitN` with `n = 1` does not split, so the
prefix is the whole rest of the line and the data is empty; the line then fails the
terminator check and `PING` is not dispatched, though the table has a handler for it
and the same command without prefix is dispatched. -/
theorem HandleMsg_prefixed_line_dropped :
    splitPrefix ":nick PING x\r\n".toList = some ("nick PING x\r\n".toList, []) ∧
    handed (HandleMsg exampleServer IrcCommandHandlers [] ⟨1⟩ ":nick PING x\r\n".toList) =
      none ∧
    handed (HandleMsg exampleServer IrcCommandHandlers [] ⟨1⟩ "PING x\r\n".toList) =
      some { handler := "IrcPingHandler", pfx := [], cmd := "PING".toList
             args := ["x".toList], trailing := [] } := by
  refine ⟨by decide, by decide, by decide⟩

/-- C2 at the line `PING x y :a b  c :d`: token 3 is the first that begins with `:`. -/
theorem HandleMsg_unprefixed_witness :
    ("PING x y :a b  c :d".toList).head? ≠ some ':' ∧
    handed (HandleMsg exampleServer IrcCommandHandlers [] ⟨1⟩
        ("PING x y :a b  c :d".toList ++ CRLF)) =
      some { handler := "IrcPingHandler", pfx := [], cmd := "PING".toList
             args := ["x".toList, "y".toList], trailing := "a b  c :d".toList } :=
  ⟨by decide,
    (HandleMsg_unprefixed exampleServer IrcCommandHandlers [] ⟨1⟩
      "PING x y :a b  c :d".toList (by decide)).1 3 ":a".toList (by decide) (by decide)
      (by decide)
      (by
        intro j t h1 h3 ht
        have hj : j = 1 ∨ j = 2 := by omega
        rcases hj with rfl | rfl
        · have hx : (Split "PING x y :a b  c :d".toList ' ')[1]? = some "x".toList := by
            decide
          rw [hx] at ht
          cases ht
          decide
        · have hy : (Split "PING x y :a b  c :d".toList ' ')[2]? = some "y".toList := by
            decide
          rw [hy] at ht
          cases ht
          decide)⟩

/-- C3 (amended) at the line `PRIVMSG #general :hello world`. -/
theorem HandleMsg_roundtrip_unprefixed_witness :
    formatLine none "PRIVMSG".toList ["#general".toList] (some "hello world".toList) =
      "PRIVMSG #general :hello world\r\n".toList ∧
    ∃ c, handed (HandleMsg exampleServer IrcCommandHandlers [] ⟨1⟩
          (formatLine none "PRIVMSG".toList ["#general".toList]
            (some "hello world".toList))) = some c ∧
      c.handler = "IrcPrivMsgHandler" ∧ c.pfx = [] ∧ c.cmd = "PRIVMSG".toList ∧
      c.args = ["#general".toList] ∧
      c.trailing = (some "hello world".toList).getD [] ∧
      serialize c = formatLine none "PRIVMSG".toList ["#general".toList]
        (some "hello world".toList) :=
  ⟨by decide,
    HandleMsg_roundtrip_unprefixed exampleServer IrcCommandHandlers [] ⟨1⟩ "PRIVMSG".toList
      ["#general".toList] (some "hello world".toList) "IrcPrivMsgHandler" (by decide)
      (by decide) (by decide) (by decide) (by decide)⟩

/-- C4 at the unterminated line `PING x`, with a registry that holds a nil entry. -/
theorem HandleMsg_unterminated_witness :
    HasSuffix "PING x".toList CRLF = false ∧
    HandleMsg exampleServer IrcCommandHandlers [(⟨2⟩, none)] ⟨1⟩ "PING x".toList =
      some { UserContexts := [(⟨2⟩, none)], started := none, call := none } :=
  ⟨by decide,
    HandleMsg_unterminated exampleServer IrcCommandHandlers [(⟨2⟩, none)] ⟨1⟩
      "PING x".toList (by decide)⟩

/-! ## The numeric reply -/

set_option maxRecDepth 1000000 in
/-- For the codes `0 ≤ n < 1000`, `%03d` writes the hundreds, the tens and the units. -/
theorem fmtZeroPadded_three_nat : ∀ n : Nat, n < 1000 →
    fmtZeroPadded 3 (n : Int) = threeDigits (n : Int) := by
  decide

/-- C10. For every server name (`ctx.ServerName`), every code `0 ≤ code ≤ 999`, every
target `args` and every text `desc`, `SendIrcNumeric` makes exactly one write, of the
line `":" + server + " " + ddd + " " + args + " :" + desc + "\r\n"` where `ddd` is the
code as exactly three decimal digits (hundreds, tens, units), and does nothing else. -/
theorem SendIrcNumeric_format (ctx : IrcContext) (code : Int) (args desc : GoString)
    (h0 : 0 ≤ code) (h999 : code ≤ 999) :
    SendIrcNumeric ctx code args desc =
      [Effect.write ([':'] ++ ctx.ServerName ++ [' '] ++ threeDigits code ++ [' '] ++ args ++
        [' ', ':'] ++ desc ++ ['\r', '\n'])] := by
  obtain ⟨n, rfl⟩ := Int.eq_ofNat_of_zero_le h0
  have hn : n < 1000 := by omega
  simp only [SendIrcNumeric, fmtZeroPadded_three_nat n hn]
  rfl

/-- C10 at the codes 1 and 43, written `001` and `043`. -/
theorem SendIrcNumeric_format_witness :
    (0 : Int) ≤ 1 ∧ (1 : Int) ≤ 999 ∧ threeDigits 1 = "001".toList ∧
    threeDigits 43 = "043".toList ∧
    SendIrcNumeric exampleContext 1 "alice".toList "Welcome".toList =
      [Effect.write ([':'] ++ exampleContext.ServerName ++ [' '] ++ threeDigits 1 ++ [' '] ++
        "alice".toList ++ [' ', ':'] ++ "Welcome".toList ++ ['\r', '\n'])] ∧
    SendIrcNumeric exampleContext 43 "bob".toList "Your nickname is alice".toList =
      [Effect.write ([':'] ++ exampleContext.ServerName ++ [' '] ++ threeDigits 43 ++ [' '] ++
        "bob".toList ++ [' ', ':'] ++ "Your nickname is alice".toList ++ ['\r', '\n'])] :=
  ⟨by decide, by decide, by decide, by decide,
    SendIrcNumeric_format exampleContext 1 "alice".toList "Welcome".toList (by decide)
      (by decide),
    SendIrcNumeric_format exampleContext 43 "bob".toList "Your nickname is alice".toList
      (by decide) (by decide)⟩

/-! ## Command handlers -/

/-- C5, at the line `PRIVMSG` (no argument): the framer hands the empty argument list
to `IrcPrivMsgHandler`, which only logs the wrong count and goes on to `args[0]`: for
every session it ends in a run-time panic, having written no reply. -/
theorem IrcPrivMsgHandler_no_args_panics :
    handed (HandleMsg exampleServer IrcCommandHandlers [] ⟨1⟩ "PRIVMSG\r\n".toList) =
      some { handler := "IrcPrivMsgHandler", pfx := [], cmd := "PRIVMSG".toList, args := []
             trailing := [] } ∧
    ∀ ctx : IrcContext,
      (IrcPrivMsgHandler ctx [] "PRIVMSG".toList [] []).panicked = true ∧
      (IrcPrivMsgHandler ctx [] "PRIVMSG".toList [] []).effects = [] :=
  ⟨by decide, fun _ => ⟨rfl, rfl⟩⟩

/-- With two or more arguments `IrcPrivMsgHandler` sends no numeric reply either: on a
connected session it posts to the first argument. -/
theorem IrcPrivMsgHandler_extra_args (ctx : IrcContext) (client : SlackClient)
    (pfx cmd a b trailing : GoString) (rest : List GoString)
    (hclient : ctx.SlackClient = some client) :
    (IrcPrivMsgHandler ctx pfx cmd (a :: b :: rest) trailing).effects =
      [Effect.postMessage (if HasPrefix a ['#'] then a else '@' :: a) trailing true] := by
  unfold IrcPrivMsgHandler
  simp only [List.get?_cons_zero, hclient]
  cases HasPrefix a ['#'] <;> rfl

/-- The sibling handlers do what C5 says on a wrong argument count: `PASS`, `JOIN`,
`PART` (other than one argument) and `WHOIS` (other than one or two) write one
numeric error reply, call no remote API, do not close the connection and do not
panic. -/
theorem wrong_arity_siblings (m : ContextMethods) (ctx : IrcContext)
    (pfx cmd trailing : GoString) (args : List GoString) :
    (args.length ≠ 1 →
      IrcPassHandler ctx pfx cmd args trailing =
        { ctx := ctx, effects := SendIrcNumeric ctx 464 [] "Invalid password".toList
          panicked := false } ∧
      IrcJoinHandler ctx pfx cmd args trailing =
        { ctx := ctx, effects := SendIrcNumeric ctx 400 ctx.Nick "Invalid JOIN command".toList
          panicked := false } ∧
      IrcPartHandler m ctx pfx cmd args trailing =
        { ctx := ctx, effects := SendIrcNumeric ctx 400 ctx.Nick "Invalid PART command".toList
          panicked := false }) ∧
    (args.length ≠ 1 ∧ args.length ≠ 2 →
      IrcWhoisHandler m ctx pfx cmd args trailing =
        { ctx := ctx, effects := SendIrcNumeric ctx 400 ctx.Nick "Invalid WHOIS command".toList
          panicked := false }) := by
  refine ⟨fun h => ⟨?_, ?_, ?_⟩, fun h => ?_⟩
  · simp [IrcPassHandler, h]
  · simp [IrcJoinHandler, h]
  · simp [IrcPartHandler, h]
  · simp [IrcWhoisHandler, h]

/-- C9, at the line `CAP LS` (no further argument): the framer hands `["LS"]` to
`IrcCapHandler`, whose guard `len(args) > 1` is false for one argument: for every
session nothing is written. -/
theorem IrcCapHandler_LS_alone_writes_nothing :
    handed (HandleMsg exampleServer IrcCommandHandlers [] ⟨1⟩ "CAP LS\r\n".toList) =
      some { handler := "IrcCapHandler", pfx := [], cmd := "CAP".toList
             args := ["LS".toList], trailing := [] } ∧
    ∀ ctx : IrcContext,
      (IrcCapHandler ctx [] "CAP".toList ["LS".toList] []).effects = [] ∧
      (IrcCapHandler ctx [] "CAP".toList ["LS".toList, "302".toList] []).effects =
        [Effect.write ([':'] ++ ctx.ServerName ++ " CAP * LS :\r\n".toList)] :=
  ⟨by decide, fun _ => ⟨rfl, by simp [IrcCapHandler, CRLF]⟩⟩

/-- With two or more arguments `IrcCapHandler` does what C9 says: the empty capability
list when the first is `LS`, nothing otherwise; with no argument it writes nothing. -/
theorem IrcCapHandler_two_or_more (ctx : IrcContext) (pfx cmd trailing a b : GoString)
    (rest : List GoString) :
    (IrcCapHandler ctx pfx cmd (a :: b :: rest) trailing).effects =
      (if a = "LS".toList then
        [Effect.write ([':'] ++ ctx.ServerName ++ " CAP * LS :\r\n".toList)]
      else []) ∧
    (IrcCapHandler ctx pfx cmd [] trailing).effects = [] := by
  refine ⟨?_, rfl⟩
  unfold IrcCapHandler
  simp only [List.length_cons, gt_iff_lt, Nat.lt_add_left_iff_pos, Nat.zero_lt_succ, if_true,
    List.get?_cons_zero]
  split_ifs <;> simp [CRLF]

/-- The loop of `IrcPartHandler` returns the ID of the first channel named `n`, and the
empty string when there is none. -/
theorem findChanID_eq (n : GoString) (chanlist : List SlackChannel) :
    findChanID n chanlist = ((firstNamed n chanlist).map (fun ch => ch.ID)).getD [] := by
  induction chanlist with
  | nil => rfl
  | cons ch rest ih =>
    unfold findChanID firstNamed
    by_cases h : ch.Name = n
    · simp [h]
    · simpa [h, firstNamed] using ih

/-- `PART #n` and `PART n` run alike when `n` does not begin with `#`. -/
theorem IrcPartHandler_hash (m : ContextMethods) (ctx : IrcContext)
    (pfx cmd trailing n : GoString) (hn : HasPrefix n ['#'] = false) :
    IrcPartHandler m ctx pfx cmd [('#' :: n)] trailing =
      IrcPartHandler m ctx pfx cmd [n] trailing := by
  have h1 : HasPrefix ('#' :: n) ['#'] = true := by simp [HasPrefix]
  unfold IrcPartHandler
  simp [h1, hn, sliceFrom]

/-- C7 (amended). On a connected session whose remote channel list is `chanlist`, and
for a name `n` that does not begin with `#`:
* `PART #n` and `PART n` run alike;
* when the first listed channel named `n` has a non-empty ID, the handler makes
  exactly one leave call, with that ID;
* when no listed channel is named `n`, or the first one so named has an empty ID, the
  handler writes numeric 441 and makes no leave call. -/
theorem IrcPartHandler_resolution (m : ContextMethods) (ctx : IrcContext)
    (client : SlackClient) (chanlist : List SlackChannel) (pfx cmd trailing n : GoString)
    (hclient : ctx.SlackClient = some client)
    (hlist : client.GetChannels true = .ok chanlist)
    (hn : HasPrefix n ['#'] = false) :
    IrcPartHandler m ctx pfx cmd [('#' :: n)] trailing =
      IrcPartHandler m ctx pfx cmd [n] trailing ∧
    (∀ ch, firstNamed n chanlist = some ch → ch.ID ≠ [] →
      leaveCalls (IrcPartHandler m ctx pfx cmd [n] trailing).effects = [ch.ID]) ∧
    ((firstNamed n chanlist = none ∨ ∃ ch, firstNamed n chanlist = some ch ∧ ch.ID = []) →
      (IrcPartHandler m ctx pfx cmd [n] trailing).effects =
        Effect.getChannels true ::
          SendIrcNumeric ctx 441 ctx.Nick ("User is not in channel ".toList ++ n) ∧
      leaveCalls (IrcPartHandler m ctx pfx cmd [n] trailing).effects = []) := by
  refine ⟨IrcPartHandler_hash m ctx pfx cmd trailing n hn, ?_, ?_⟩
  · intro ch hch hid
    have hfind : findChanID n chanlist = ch.ID := by simp [findChanID_eq, hch]
    unfold IrcPartHandler
    simp only [List.length_singleton, ne_eq, not_true_eq_false, if_false, List.get?_cons_zero,
      hn, Bool.false_eq_true, hclient, hlist, hfind, hid]
    cases client.LeaveChannel ch.ID with
    | error e => simp [leaveCalls]
    | ok notInChan => cases notInChan <;> simp [leaveCalls, SendIrcNumeric]
  · intro h
    have hfind : findChanID n chanlist = [] := by
      rcases h with h | ⟨ch, hch, hid⟩
      · simp [findChanID_eq, h]
      · simp [findChanID_eq, hch, hid]
    unfold IrcPartHandler
    simp [hn, hclient, hlist, hfind, leaveCalls, SendIrcNumeric]

/-- C7 fails as stated: when the first listed channel named `general` has the empty
ID, `PART general` takes the empty ID for "not found": it writes numeric 441 and makes
no leave call. -/
theorem IrcPartHandler_empty_ID_counterexample :
    firstNamed "general".toList
        [{ ID := [], Name := "general".toList, Topic := [], Members := [], IsMember := true }] =
      some { ID := [], Name := "general".toList, Topic := [], Members := [], IsMember := true } ∧
    leaveCalls (IrcPartHandler exampleMethods
        (connectedContext (exampleClient
          [{ ID := [], Name := "general".toList, Topic := [], Members := []
             IsMember := true }]))
        [] "PART".toList ["general".toList] []).effects = [] ∧
    writes (IrcPartHandler exampleMethods
        (connectedContext (exampleClient
          [{ ID := [], Name := "general".toList, Topic := [], Members := []
             IsMember := true }]))
        [] "PART".toList ["general".toList] []).effects =
      [":irc.example 441 alice :User is not in channel general\r\n".toList] := by
  decide

/-- C7 (amended) at the channel list `[C01 random, C02 general]`. -/
theorem IrcPartHandler_resolution_witness :
    leaveCalls (IrcPartHandler exampleMethods
        (connectedContext (exampleClient
          [{ ID := "C01".toList, Name := "random".toList, Topic := [], Members := []
             IsMember := true },
           { ID := "C02".toList, Name := "general".toList, Topic := [], Members := []
             IsMember := true }]))
        [] "PART".toList ["general".toList] []).effects = ["C02".toList] :=
  (IrcPartHandler_resolution exampleMethods
    (connectedContext (exampleClient
      [{ ID := "C01".toList, Name := "random".toList, Topic := [], Members := []
         IsMember := true },
       { ID := "C02".toList, Name := "general".toList, Topic := [], Members := []
         IsMember := true }]))
    (exampleClient
      [{ ID := "C01".toList, Name := "random".toList, Topic := [], Members := []
         IsMember := true },
       { ID := "C02".toList, Name := "general".toList, Topic := [], Members := []
         IsMember := true }])
    _ [] "PART".toList [] "general".toList rfl rfl (by decide)).2.1
    { ID := "C02".toList, Name := "general".toList, Topic := [], Members := []
      IsMember := true } (by decide) (by decide)

/-- C8 (amended). On a connected session, a `PRIVMSG` with the single argument
`target` and trailing text `t` makes exactly one post call, as the authenticated user,
with text `t`: to `target` unchanged (leading `#` included) when `target` begins with
`#`, and to `"@" + target` when it does not; the handler does not panic. -/
theorem IrcPrivMsgHandler_target (ctx : IrcContext) (client : SlackClient)
    (pfx cmd t : GoString) (hclient : ctx.SlackClient = some client) :
    (∀ name : GoString,
      (IrcPrivMsgHandler ctx pfx cmd [('#' :: name)] t).effects =
        [Effect.postMessage ('#' :: name) t true] ∧
      (IrcPrivMsgHandler ctx pfx cmd [('#' :: name)] t).panicked = false) ∧
    (∀ u : GoString, HasPrefix u ['#'] = false →
      (IrcPrivMsgHandler ctx pfx cmd [u] t).effects = [Effect.postMessage ('@' :: u) t true] ∧
      (IrcPrivMsgHandler ctx pfx cmd [u] t).panicked = false) := by
  constructor
  · intro name
    have h1 : HasPrefix ('#' :: name) ['#'] = true := by simp [HasPrefix]
    simp [IrcPrivMsgHandler, hclient, h1]
  · intro u hu
    simp [IrcPrivMsgHandler, hclient, hu]

/-- C8 fails as stated: `PRIVMSG #general :hello` posts to `#general`, the target as
given, not to `general`. -/
theorem IrcPrivMsgHandler_channel_counterexample :
    postCalls (IrcPrivMsgHandler (connectedContext (exampleClient [])) []
        "PRIVMSG".toList ["#general".toList] "hello".toList).effects =
      [("#general".toList, "hello".toList, true)] ∧
    postCalls (IrcPrivMsgHandler (connectedContext (exampleClient [])) []
        "PRIVMSG".toList ["#general".toList] "hello".toList).effects ≠
      [("general".toList, "hello".toList, true)] := by
  decide

/-- C8 (amended) at `PRIVMSG #general :hello` and `PRIVMSG bob :hello`. -/
theorem IrcPrivMsgHandler_target_witness :
    ((IrcPrivMsgHandler (connectedContext (exampleClient [])) [] "PRIVMSG".toList
        ["#general".toList] "hello".toList).effects =
      [Effect.postMessage "#general".toList "hello".toList true]) ∧
    ((IrcPrivMsgHandler (connectedContext (exampleClient [])) [] "PRIVMSG".toList
        ["bob".toList] "hello".toList).effects =
      [Effect.postMessage "@bob".toList "hello".toList true]) :=
  ⟨((IrcPrivMsgHandler_target (connectedContext (exampleClient [])) (exampleClient []) []
      "PRIVMSG".toList "hello".toList rfl).1 "general".toList).1,
   ((IrcPrivMsgHandler_target (connectedContext (exampleClient [])) (exampleClient []) []
      "PRIVMSG".toList "hello".toList rfl).2 "bob".toList (by decide)).1⟩

/-! ## The paginated fetch: bounded retry -/

/-- The longest run is at least the leading run. -/
theorem le_longestRun (c : Nat) (l : List Bool) : c ≤ longestRun c l := by
  induction l generalizing c with
  | nil => simp [longestRun]
  | cons b bs ih =>
    cases b
    · simp [longestRun]
    · have := ih (c + 1)
      simp only [longestRun]
      omega

/-- The longest run of a concatenation. -/
theorem longestRun_append (c : Nat) (a b : List Bool) :
    longestRun c (a ++ b) = max (longestRun c a) (longestRun (finalRun c a) b) := by
  induction a generalizing c with
  | nil =>
    have := le_longestRun c b
    simp only [List.nil_append, longestRun, finalRun]
    omega
  | cons x xs ih =>
    cases x
    · rw [List.cons_append]
      simp only [longestRun, finalRun]
      rw [ih 0]
      omega
    · rw [List.cons_append]
      simp only [longestRun, finalRun]
      rw [ih (c + 1)]

/-- The final run of a concatenation. -/
theorem finalRun_append (c : Nat) (a b : List Bool) :
    finalRun c (a ++ b) = finalRun (finalRun c a) b := by
  induction a generalizing c with
  | nil => rfl
  | cons x xs ih =>
    cases x
    · rw [List.cons_append]
      simp only [finalRun]
      rw [ih 0]
    · rw [List.cons_append]
      simp only [finalRun]
      rw [ih (c + 1)]

/-- The longest run of `k` more `true`s. -/
theorem longestRun_replicate (c k : Nat) :
    longestRun c (List.replicate k true) = c + k := by
  induction k generalizing c with
  | zero => rfl
  | succ k ih =>
    simp only [List.replicate_succ, longestRun, ih (c + 1)]
    omega

/-- The final run of `k` more `true`s. -/
theorem finalRun_replicate (c k : Nat) :
    finalRun c (List.replicate k true) = c + k := by
  induction k generalizing c with
  | zero => rfl
  | succ k ih =>
    simp only [List.replicate_succ, finalRun, ih (c + 1)]
    omega

/-- The longest run of a list of `true`s. -/
theorem longestRun_all_true (c : Nat) (r : List Bool) (h : ∀ b ∈ r, b = true) :
    longestRun c r = c + r.length := by
  have : r = List.replicate r.length true := List.eq_replicate_iff.mpr ⟨rfl, h⟩
  rw [this, longestRun_replicate]
  simp

/-- A segment of `true`s is no longer than the longest run. -/
theorem run_le_longestRun (c : Nat) (p r q : List Bool) (h : ∀ b ∈ r, b = true) :
    r.length ≤ longestRun c (p ++ r ++ q) := by
  rw [List.append_assoc, longestRun_append, longestRun_append, longestRun_all_true _ r h]
  omega

/-- The flags of a concatenation of events. -/
theorem rateFlags_append (a b : List Event) : rateFlags (a ++ b) = rateFlags a ++ rateFlags b := by
  simp [rateFlags]

/-- The events after putting one in front. -/
theorem Attempts.trace_cons {α σ : Type} (ev : Event) (a : Attempts α σ) :
    (a.cons ev).trace = ev :: a.trace := by
  cases a <;> rfl

/-- Putting an event in front does not change how the loop ended. -/
theorem Attempts.isExceeded_cons {α σ : Type} (ev : Event) (a : Attempts α σ) :
    (a.cons ev).isExceeded = a.isExceeded := by
  cases a <;> rfl

/-- One turn of the attempt loop on a rate-limit error: `attempt++; continue`, with the cursor the call returned. -/
theorem attemptLoop_limited {α σ : Type} (call : σ → GoString → Page α × σ)
    (mk : GoString → ApiCall) (left : Nat) (st : σ) (cur : GoString) (d : Nat)
    (h : (call st cur).1.err = some (.rateLimited d)) :
    attemptLoop call mk (left + 1) st cur =
      (attemptLoop call mk left (call st cur).2 (call st cur).1.nextCursor).cons
        (Event.request (mk cur) (some (.rateLimited d))) := by
  simp only [attemptLoop, h]

/-- One turn of the attempt loop on another error: `return`. -/
theorem attemptLoop_other {α σ : Type} (call : σ → GoString → Page α × σ)
    (mk : GoString → ApiCall) (left : Nat) (st : σ) (cur msg : GoString)
    (h : (call st cur).1.err = some (.other msg)) :
    attemptLoop call mk (left + 1) st cur =
      .failed msg (call st cur).2 [Event.request (mk cur) (some (.other msg))] := by
  simp only [attemptLoop, h]

/-- One turn of the attempt loop on success: `break`. -/
theorem attemptLoop_page {α σ : Type} (call : σ → GoString → Page α × σ)
    (mk : GoString → ApiCall) (left : Nat) (st : σ) (cur : GoString)
    (h : (call st cur).1.err = none) :
    attemptLoop call mk (left + 1) st cur =
      .page (call st cur).1.items (call st cur).1.nextCursor (call st cur).2
        [Event.request (mk cur) none] := by
  simp only [attemptLoop, h]

/-- The requests of an attempt loop: `k` rate-limited ones, then, unless the budget
was exceeded (`k = left`), one that is not rate-limited (`k < left`). -/
theorem attemptLoop_flags {α σ : Type} (call : σ → GoString → Page α × σ)
    (mk : GoString → ApiCall) (left : Nat) (st : σ) (cur : GoString) :
    ∃ k, rateFlags (attemptLoop call mk left st cur).trace =
        List.replicate k true ++
          (if (attemptLoop call mk left st cur).isExceeded then [] else [false]) ∧
      (if (attemptLoop call mk left st cur).isExceeded then k = left else k < left) := by
  induction left generalizing st cur with
  | zero => exact ⟨0, by simp [attemptLoop, Attempts.trace, Attempts.isExceeded, rateFlags]⟩
  | succ left ih =>
    cases herr : (call st cur).1.err with
    | none =>
      rw [attemptLoop_page call mk left st cur herr]
      exact ⟨0, by simp [Attempts.trace, Attempts.isExceeded, rateFlags, Event.isRequest,
        Event.isRateLimited]⟩
    | some e =>
      cases e with
      | other msg =>
        rw [attemptLoop_other call mk left st cur msg herr]
        exact ⟨0, by simp [Attempts.trace, Attempts.isExceeded, rateFlags, Event.isRequest,
          Event.isRateLimited]⟩
      | rateLimited d =>
        rw [attemptLoop_limited call mk left st cur d herr]
        obtain ⟨k, hk, hb⟩ := ih (call st cur).2 (call st cur).1.nextCursor
        refine ⟨k + 1, ?_, ?_⟩
        · simp only [Attempts.trace_cons, Attempts.isExceeded_cons]
          have : rateFlags (Event.request (mk cur) (some (SlackError.rateLimited d)) ::
              (attemptLoop call mk left (call st cur).2 (call st cur).1.nextCursor).trace) =
              true :: rateFlags
                (attemptLoop call mk left (call st cur).2 (call st cur).1.nextCursor).trace := by
            simp [rateFlags, Event.isRequest, Event.isRateLimited]
          rw [this, hk, List.replicate_succ, List.cons_append]
        · simp only [Attempts.isExceeded_cons]
          split_ifs with hx
          · simp only [hx, if_true] at hb
            omega
          · simp only [hx] at hb
            simp only [Bool.false_eq_true, if_false] at hb
            omega

/-- Against a call that always answers with a rate-limit error, the attempt loop makes
`left` requests, all rate-limited, and ends on the exceeded budget. -/
theorem attemptLoop_always_limited {α σ : Type} (call : σ → GoString → Page α × σ)
    (mk : GoString → ApiCall) (hall : ∀ s c, (call s c).1.rateLimited = true)
    (left : Nat) (st : σ) (cur : GoString) :
    ∃ st1 tr, attemptLoop call mk left st cur = .exceeded st1 tr ∧ tr.length = left ∧
      (∀ e ∈ tr, e.isRequest = true ∧ e.isRateLimited = true) := by
  induction left generalizing st cur with
  | zero => exact ⟨st, [], rfl, rfl, by simp⟩
  | succ left ih =>
    have h := hall st cur
    unfold Page.rateLimited at h
    cases herr : (call st cur).1.err with
    | none => simp [herr] at h
    | some e =>
      cases e with
      | other msg => simp [herr] at h
      | rateLimited d =>
        rw [attemptLoop_limited call mk left st cur d herr]
        obtain ⟨st1, tr, heq, hlen, hall2⟩ := ih (call st cur).2 (call st cur).1.nextCursor
        refine ⟨st1, Event.request (mk cur) (some (.rateLimited d)) :: tr, ?_, ?_, ?_⟩
        · simp only [heq, Attempts.cons]
        · simp [hlen]
        · intro e he
          rcases List.mem_cons.mp he with rfl | he
          · exact ⟨rfl, rfl⟩
          · exact hall2 e he

/-- The longest run when the requests start with `k` rate-limited ones and one that is not. -/
theorem longestRun_block (k : Nat) (l : List Bool) :
    longestRun 0 (List.replicate k true ++ [false] ++ l) = max k (longestRun 0 l) := by
  rw [longestRun_append, longestRun_append, longestRun_replicate, finalRun_append,
    finalRun_replicate]
  simp [longestRun, finalRun]

/-- The final run when the requests start with `k` rate-limited ones and one that is not. -/
theorem finalRun_block (k : Nat) (l : List Bool) :
    finalRun 0 (List.replicate k true ++ [false] ++ l) = finalRun 0 l := by
  rw [finalRun_append, finalRun_append, finalRun_replicate]
  simp [finalRun]

/-- The page loop is bounded, whatever the remote answers and whatever the fuel. -/
theorem pageLoop_bounded {α σ : Type} (call : σ → GoString → Page α × σ)
    (mk : GoString → ApiCall) (exceededMsg : GoString) (failedMsg : GoString → GoString)
    (fuel : Nat) (st : σ) (acc : List α) (cur : GoString) :
    Bounded (pageLoop call mk exceededMsg failedMsg fuel st acc cur) := by
  induction fuel generalizing st acc cur with
  | zero => exact ⟨by simp [pageLoop, rateFlags, longestRun], by simp [pageLoop]⟩
  | succ fuel ih =>
    obtain ⟨k, hk, hb⟩ := attemptLoop_flags call mk MaxSlackAPIAttempts st cur
    unfold pageLoop
    cases hloop : attemptLoop call mk MaxSlackAPIAttempts st cur with
    | exceeded st1 tr =>
      simp only [hloop, Attempts.trace, Attempts.isExceeded, if_true, List.append_nil] at hk hb
      refine ⟨?_, by simp⟩
      simp only [hk, longestRun_replicate]
      omega
    | failed msg st1 tr =>
      simp only [hloop, Attempts.trace, Attempts.isExceeded, Bool.false_eq_true, if_false]
        at hk hb
      refine ⟨?_, by simp⟩
      have := longestRun_block k []
      simp only [List.append_nil] at this
      simp only [hk, this, longestRun]
      unfold MaxSlackAPIAttempts at hb ⊢
      omega
    | page m cur1 st1 tr =>
      simp only [hloop, Attempts.trace, Attempts.isExceeded, Bool.false_eq_true, if_false]
        at hk hb
      simp only
      split_ifs with hc
      · have h1 := longestRun_block k []
        have h2 := finalRun_block k []
        simp only [List.append_nil] at h1 h2
        refine ⟨?_, fun _ => ?_⟩
        · simp only [hk, h1, longestRun]
          unfold MaxSlackAPIAttempts at hb ⊢
          omega
        · simp only [hk, h2, finalRun]
      · obtain ⟨i1, i2⟩ := ih st1 (acc ++ m) cur1
        refine ⟨?_, fun hv => ?_⟩
        · simp only [rateFlags_append, hk, longestRun_block]
          unfold MaxSlackAPIAttempts at hb i1 ⊢
          omega
        · simp only [rateFlags_append, hk, finalRun_block]
          exact i2 hv

/-- A bounded fetch that succeeded, followed by a bounded fetch, is bounded. -/
theorem Bounded_append {α β σ : Type} (a : Fetch α σ) (b : Fetch β σ) (c : Fetch β σ)
    (ha : Bounded a) (hb : Bounded b) (hok : ∃ v, a.result = some (.ok v))
    (htrace : c.trace = a.trace ++ b.trace) (hres : c.result = b.result) : Bounded c := by
  have h0 := ha.2 hok
  refine ⟨?_, fun hv => ?_⟩
  · rw [htrace, rateFlags_append, longestRun_append, h0]
    have := ha.1
    have := hb.1
    omega
  · rw [htrace, rateFlags_append, finalRun_append, h0]
    exact hb.2 (by rw [← hres]; exact hv)

/-- `usersInConversation` is bounded. -/
theorem usersInConversation_bounded {σ : Type} (api : Remote σ) (fuel : Nat) (st : σ)
    (conversation : GoString) : Bounded (usersInConversation api fuel st conversation) :=
  pageLoop_bounded _ _ _ _ fuel st [] []

/-- The conversation listing of `joinChannels` is bounded. -/
theorem listConversations_bounded {σ : Type} (api : Remote σ) (fuel : Nat) (st : σ) :
    Bounded (listConversations api fuel st) :=
  pageLoop_bounded _ _ _ _ fuel st [] []

/-- `join` is bounded. -/
theorem join_bounded {σ : Type} (api : Remote σ) (fuel : Nat) (st : σ)
    (id name topic : GoString) : Bounded (join api fuel st id name topic) := by
  have hb := usersInConversation_bounded api fuel st id
  unfold join
  simp only
  cases hr : (usersInConversation api fuel st id).result with
  | none => exact ⟨hb.1, by simp⟩
  | some r =>
    cases r with
    | error e => exact ⟨hb.1, by simp⟩
    | ok members =>
      have hflags : rateFlags ((usersInConversation api fuel st id).trace ++
          [Event.goSendChanInfoAfterJoin name topic members false]) =
          rateFlags (usersInConversation api fuel st id).trace := by
        simp [rateFlags, Event.isRequest]
      refine ⟨?_, fun _ => ?_⟩
      · simp only [hflags]
        exact hb.1
      · simp only [hflags]
        exact hb.2 ⟨members, hr⟩

/-- The last loop of `joinChannels` is bounded. -/
theorem joinMemberChannels_bounded {σ : Type} (api : Remote σ) (fuel : Nat)
    (channels : List SlackChannel) (st : σ) :
    Bounded (joinMemberChannels api fuel channels st) := by
  induction channels generalizing st with
  | nil => exact ⟨by simp [joinMemberChannels, rateFlags, longestRun], by
      simp [joinMemberChannels, rateFlags, finalRun]⟩
  | cons ch rest ih =>
    unfold joinMemberChannels
    split_ifs with hm
    · have hj := join_bounded api fuel st ch.ID ch.Name ch.Topic
      simp only
      cases hr : (join api fuel st ch.ID ch.Name ch.Topic).result with
      | none => simpa [hr] using hj
      | some r =>
        cases r with
        | error e => simpa [hr] using hj
        | ok v =>
          simp only [hr]
          exact Bounded_append _ _ _ hj (ih _) ⟨v, hr⟩ rfl rfl
    · exact ih st

/-- `joinChannels` is bounded. -/
theorem joinChannels_bounded {σ : Type} (api : Remote σ) (fuel : Nat) (st : σ) :
    Bounded (joinChannels api fuel st) := by
  have hl := listConversations_bounded api fuel st
  unfold joinChannels
  simp only
  cases hr : (listConversations api fuel st).result with
  | none => exact ⟨hl.1, by simp⟩
  | some r =>
    cases r with
    | error e => exact ⟨hl.1, by simp⟩
    | ok channels =>
      simp only
      exact Bounded_append _ _ _ hl (joinMemberChannels_bounded api fuel channels _)
        ⟨channels, hr⟩ rfl rfl

/-- In a bounded fetch, a run of consecutive requests that are all rate-limited has at
most `MaxSlackAPIAttempts` requests. -/
theorem Bounded.run_le {α σ : Type} (f : Fetch α σ) (hf : Bounded f)
    (p run q : List Event) (hsplit : f.requests = p ++ run ++ q)
    (hall : ∀ e ∈ run, e.isRateLimited = true) : run.length ≤ MaxSlackAPIAttempts := by
  have hflags : rateFlags f.trace =
      p.map Event.isRateLimited ++ run.map Event.isRateLimited ++
        q.map Event.isRateLimited := by
    unfold rateFlags
    unfold Fetch.requests at hsplit
    rw [hsplit]
    simp
  have hrun : ∀ b ∈ run.map Event.isRateLimited, b = true := by
    intro b hb
    obtain ⟨e, he, rfl⟩ := List.mem_map.mp hb
    exact hall e he
  have := run_le_longestRun 0 (p.map Event.isRateLimited) _ (q.map Event.isRateLimited) hrun
  rw [← hflags, List.length_map] at this
  exact le_trans this hf.1

/-- Against a call that always answers with a rate-limit error the page loop, given any
fuel but none, makes `MaxSlackAPIAttempts` requests and returns the exceeded error. -/
theorem pageLoop_always_limited {α σ : Type} (call : σ → GoString → Page α × σ)
    (mk : GoString → ApiCall) (exceededMsg : GoString) (failedMsg : GoString → GoString)
    (hall : ∀ s c, (call s c).1.rateLimited = true)
    (fuel : Nat) (hfuel : 0 < fuel) (st : σ) (acc : List α) (cur : GoString) :
    (pageLoop call mk exceededMsg failedMsg fuel st acc cur).result =
        some (.error exceededMsg) ∧
    (pageLoop call mk exceededMsg failedMsg fuel st acc cur).requests.length =
        MaxSlackAPIAttempts ∧
    (∀ e ∈ (pageLoop call mk exceededMsg failedMsg fuel st acc cur).trace,
        e.isRateLimited = true) := by
  obtain ⟨f, rfl⟩ : ∃ f, fuel = f + 1 := ⟨fuel - 1, by omega⟩
  obtain ⟨st1, tr, heq, hlen, hall2⟩ :=
    attemptLoop_always_limited call mk hall MaxSlackAPIAttempts st cur
  have hfilter : tr.filter Event.isRequest = tr :=
    List.filter_eq_self.mpr (fun e he => (hall2 e he).1)
  simp only [pageLoop, heq, Fetch.requests, hfilter, hlen, true_and]
  exact fun e he => (hall2 e he).2

/-- C6. Bounded retry.
* Against a remote that answers every membership request for `conversation` with a
  rate-limit error, `usersInConversation` (given any fuel but none) makes exactly
  `MaxSlackAPIAttempts = 3` requests and returns the "exceeded the maximum number of
  attempts" error, with no members.
* Against a remote that answers every conversation-list request with a rate-limit
  error, `joinChannels` does the same with its own error.
* Against any remote and with any fuel, no run of consecutive requests of
  `usersInConversation` or of `joinChannels` that are all answered with a rate-limit
  error has more than 3 requests. -/
theorem bounded_retry {σ : Type} (api : Remote σ) (fuel : Nat) (st : σ)
    (conversation : GoString) :
    MaxSlackAPIAttempts = 3 ∧
    (0 < fuel →
      (∀ s cur, (api.GetUsersInConversation s conversation cur).1.rateLimited = true) →
      (usersInConversation api fuel st conversation).result =
        some (.error (exceededError "GetUsersInConversation".toList)) ∧
      (usersInConversation api fuel st conversation).requests.length = 3) ∧
    (0 < fuel →
      (∀ s cur, (api.GetConversations s cur).1.rateLimited = true) →
      (joinChannels api fuel st).result =
        some (.error (exceededError "GetConversations".toList)) ∧
      (joinChannels api fuel st).requests.length = 3) ∧
    (∀ p run q : List Event,
      (usersInConversation api fuel st conversation).requests = p ++ run ++ q →
      (∀ e ∈ run, e.isRateLimited = true) → run.length ≤ 3) ∧
    (∀ p run q : List Event,
      (joinChannels api fuel st).requests = p ++ run ++ q →
      (∀ e ∈ run, e.isRateLimited = true) → run.length ≤ 3) := by
  refine ⟨rfl, ?_, ?_, ?_, ?_⟩
  · intro hfuel hall
    have h := pageLoop_always_limited
      (fun s cur => api.GetUsersInConversation s conversation cur)
      (ApiCall.getUsersInConversation conversation)
      (exceededError "GetUsersInConversation".toList)
      (fun err => "Cannot get member list for conversation ".toList ++ conversation ++
        ": ".toList ++ err) hall fuel hfuel st [] []
    exact ⟨h.1, h.2.1⟩
  · intro hfuel hall
    have h := pageLoop_always_limited api.GetConversations ApiCall.getConversations
      (exceededError "GetConversations".toList)
      (fun err => "Cannot get slack channels: ".toList ++ err) hall fuel hfuel st [] []
    have hres : (listConversations api fuel st).result =
        some (.error (exceededError "GetConversations".toList)) := h.1
    have hreq : (listConversations api fuel st).requests.length = 3 := h.2.1
    unfold joinChannels
    simp only [hres]
    exact ⟨trivial, hreq⟩
  · intro p run q hsplit hall
    exact Bounded.run_le _ (usersInConversation_bounded api fuel st conversation) p run q
      hsplit hall
  · intro p run q hsplit hall
    exact Bounded.run_le _ (joinChannels_bounded api fuel st) p run q hsplit hall

/-- C6 against the remote that always answers with a rate-limit error. -/
theorem bounded_retry_witness :
    exceededError "GetUsersInConversation".toList =
      "GetUsersInConversation: exceeded the maximum number of attempts (3) with the Slack API".toList ∧
    ((usersInConversation alwaysRateLimited 1 0 "C01".toList).result =
        some (.error (exceededError "GetUsersInConversation".toList)) ∧
      (usersInConversation alwaysRateLimited 1 0 "C01".toList).requests.length = 3) ∧
    ((joinChannels alwaysRateLimited 1 0).result =
        some (.error (exceededError "GetConversations".toList)) ∧
      (joinChannels alwaysRateLimited 1 0).requests.length = 3) :=
  ⟨by decide,
    (bounded_retry alwaysRateLimited 1 0 "C01".toList).2.1 (by decide) (fun _ _ => rfl),
    (bounded_retry alwaysRateLimited 1 0 "C01".toList).2.2.1 (by decide) (fun _ _ => rfl)⟩

/-! ## The paginated fetch: the cursor of a retry -/

/-- C11, against a remote with two pages that answers the request for the second
page (cursor `c2`) once with a rate-limit error and the empty cursor beside it: the
call assigns `nextCursor` also on an error, so the retry is issued with the empty
cursor, not with `c2`; it fetches the first page again, and the fetch succeeds with
the first page contributed twice.
* `usersInConversation` issues the cursors `""`, `c2` (rate-limited), `""`, `c2` and
  returns `U1, U1, U2`, where the pages are `U1` and `U2`.
* `joinChannels` lists with the same cursors and joins `general` twice, then `random`,
  where the pages are `general` and `random`. -/
theorem retry_takes_returned_cursor :
    cursors (usersInConversation rateLimitedOnce 4 0 "C01".toList).trace =
      [[], "c2".toList, [], "c2".toList] ∧
    rateFlags (usersInConversation rateLimitedOnce 4 0 "C01".toList).trace =
      [false, true, false, false] ∧
    (usersInConversation rateLimitedOnce 4 0 "C01".toList).result =
      some (.ok ["U1".toList, "U1".toList, "U2".toList]) ∧
    cursors (listRequests (joinChannels rateLimitedOnce 4 0).trace) =
      [[], "c2".toList, [], "c2".toList] ∧
    rateFlags (listRequests (joinChannels rateLimitedOnce 4 0).trace) =
      [false, true, false, false] ∧
    (joinChannels rateLimitedOnce 4 0).result = some (.ok []) ∧
    joined (joinChannels rateLimitedOnce 4 0).trace =
      ["general".toList, "general".toList, "random".toList] :=
  ⟨by decide, by decide, rfl, by decide, by decide, rfl, by decide⟩

end IrcSlack
